import Mathlib

/-!
# Gravity simulation and vector-field sampling of the Vulkan 2D engine

A shallow embedding of `GravitySystem.cpp` (`GravityPhysicsSystem` and
`Vec2FieldSystem`).  The `float` scalars of the source are idealised as the
elements of a linearly ordered field `α` (the real numbers in particular), the
`std::vector<VEGameObject>` arguments are lists, and the scalar functions the
source takes from the maths libraries (`glm::sqrt`, `glm::log`, `atan2`) are
passed in as a record of functions.
-/

namespace VulkanEngine

/-- Two-component vector, `glm::vec2`. -/
@[ext]
structure Vec2 (α : Type) where
  x : α
  y : α
deriving DecidableEq

/-- Three-component vector, `glm::vec3` (only used for colours). -/
@[ext]
structure Vec3 (α : Type) where
  x : α
  y : α
  z : α
deriving DecidableEq

namespace Vec2

variable {α : Type}

instance [Zero α] : Zero (Vec2 α) := ⟨⟨0, 0⟩⟩

instance [Add α] : Add (Vec2 α) := ⟨fun u v => ⟨u.x + v.x, u.y + v.y⟩⟩

instance [Neg α] : Neg (Vec2 α) := ⟨fun u => ⟨-u.x, -u.y⟩⟩

instance [Sub α] : Sub (Vec2 α) := ⟨fun u v => ⟨u.x - v.x, u.y - v.y⟩⟩

/-- Scalar times vector, `operator*(float, glm::vec2)`. -/
instance [Mul α] : SMul α (Vec2 α) := ⟨fun s v => ⟨s * v.x, s * v.y⟩⟩

/-- Vector divided by scalar, `operator/(glm::vec2, float)`. -/
instance [Div α] : HDiv (Vec2 α) α (Vec2 α) := ⟨fun v s => ⟨v.x / s, v.y / s⟩⟩

instance [AddCommGroup α] : AddCommGroup (Vec2 α) where
  add_assoc u v w := by ext <;> exact add_assoc _ _ _
  zero_add u := by ext <;> exact zero_add _
  add_zero u := by ext <;> exact add_zero _
  add_comm u v := by ext <;> exact add_comm _ _
  neg_add_cancel u := by ext <;> exact neg_add_cancel _
  sub_eq_add_neg u v := by ext <;> exact sub_eq_add_neg _ _
  nsmul := nsmulRec
  zsmul := zsmulRec

instance [Ring α] : Module α (Vec2 α) where
  one_smul v := by ext <;> exact one_mul _
  mul_smul s t v := by ext <;> exact mul_assoc _ _ _
  smul_zero s := by ext <;> exact mul_zero _
  smul_add s u v := by ext <;> exact mul_add _ _ _
  add_smul s t v := by ext <;> exact add_mul _ _ _
  zero_smul v := by ext <;> exact zero_mul _

end Vec2

/-- The scalar functions the source calls in the maths libraries: `glm::sqrt`,
`glm::log` and the C library's `atan2 (y, x)`. -/
structure MathFns (α : Type) where
  sqrt : α → α
  log : α → α
  atan2 : α → α → α

section glm

variable {α : Type} [LinearOrderedField α]

/-- `glm::dot` on `glm::vec2`. -/
def dot (u v : Vec2 α) : α := u.x * v.x + u.y * v.y

/-- `glm::length` on `glm::vec2`: the square root of the dot product. -/
def length (fns : MathFns α) (v : Vec2 α) : α := fns.sqrt (dot v v)

/-- `glm::clamp (x, minVal, maxVal)`, which is `min (max (x, minVal), maxVal)`. -/
def clamp (x minVal maxVal : α) : α := min (max x minVal) maxVal

end glm

/-- Modelled from the spec: the declaration of `TransformComponent2D` is in
`VE_GameObject.h`, which is not among the sources; the fields are the ones
`GravitySystem.cpp` and `Application.cpp` read and write (position, visual
scale, visual rotation). -/
@[ext]
structure Transform2D (α : Type) where
  Translation : Vec2 α
  Scale : Vec2 α
  Rotation : α
deriving DecidableEq

/-- Modelled from the spec: the declaration of `RigidBody2DComponent` is in
`VE_GameObject.h`, which is not among the sources; the fields are the ones
`GravitySystem.cpp` reads and writes (velocity, mass). -/
@[ext]
structure RigidBody2D (α : Type) where
  Velocity : Vec2 α
  Mass : α
deriving DecidableEq

/-- Modelled from the spec: the declaration of `VEGameObject` is in
`VE_GameObject.h`, which is not among the sources; the fields are the ones
`GravitySystem.cpp` and `Application.cpp` use.  The drawable `m_Model` is a
shared handle, kept as a number. -/
@[ext]
structure VEGameObject (α : Type) where
  m_Model : Nat
  m_Color : Vec3 α
  m_Transform2D : Transform2D α
  m_RigidBody2D : RigidBody2D α
deriving DecidableEq

/-- The class `GravityPhysicsSystem`: its only member is the gravitational
constant, fixed at construction. -/
structure GravityPhysicsSystem (α : Type) where
  m_StrengthGravity : α

section code

variable {α : Type} [LinearOrderedField α]

/-- `GravityPhysicsSystem::ComputeForce (fromObj, toObj)`, in exact arithmetic:
the `float` operations of the source are taken without rounding, so the guard
compares the exact squared distance with the exact `1e-10`.  The same function
with every operation rounded is `GravityPhysicsSystem.ComputeForceRounded`. -/
def GravityPhysicsSystem.ComputeForce (self : GravityPhysicsSystem α) (fns : MathFns α)
    (fromObj toObj : VEGameObject α) : Vec2 α :=
  let offset := fromObj.m_Transform2D.Translation - toObj.m_Transform2D.Translation
  let distanceSquared := dot offset offset
  if |distanceSquared| < 1e-10 then
    ⟨0, 0⟩
  else
    let force := self.m_StrengthGravity * toObj.m_RigidBody2D.Mass * fromObj.m_RigidBody2D.Mass
      / distanceSquared
    (force • offset) / fns.sqrt distanceSquared

/-- One pass of the inner loop body of `StepSimulation` for the pair of
positions `a`, `b` (`iterA`, `iterB`): one force evaluation, then the velocity
of `objA` and the velocity of `objB` are updated in place. -/
def GravityPhysicsSystem.applyPair (self : GravityPhysicsSystem α) (fns : MathFns α) (dt : α)
    (a b : Nat) (physicsObjs : List (VEGameObject α)) : List (VEGameObject α) :=
  match physicsObjs[a]?, physicsObjs[b]? with
  | some objA, some objB =>
    let force := self.ComputeForce fns objA objB
    let physicsObjs1 := physicsObjs.modify
      (fun obj => { obj with m_RigidBody2D.Velocity :=
        obj.m_RigidBody2D.Velocity + (dt • -force) / obj.m_RigidBody2D.Mass }) a
    physicsObjs1.modify
      (fun obj => { obj with m_RigidBody2D.Velocity :=
        obj.m_RigidBody2D.Velocity + (dt • force) / obj.m_RigidBody2D.Mass }) b
  | _, _ => physicsObjs

/-- The first loop nest of `StepSimulation`: `iterA` runs over every position,
`iterB` from `iterA` to the end, and the pass with `iterA == iterB` is skipped. -/
def GravityPhysicsSystem.applyForces (self : GravityPhysicsSystem α) (fns : MathFns α)
    (physicsObjs : List (VEGameObject α)) (dt : α) : List (VEGameObject α) :=
  (List.range physicsObjs.length).foldl
    (fun objs a =>
      (List.range' a (physicsObjs.length - a)).foldl
        (fun objs b => if a = b then objs else self.applyPair fns dt a b objs) objs)
    physicsObjs

/-- `GravityPhysicsSystem::StepSimulation (physicsObjs, dt)`: the pairwise
velocity updates, then every position is advanced by its final velocity. -/
def GravityPhysicsSystem.StepSimulation (self : GravityPhysicsSystem α) (fns : MathFns α)
    (physicsObjs : List (VEGameObject α)) (dt : α) : List (VEGameObject α) :=
  (self.applyForces fns physicsObjs dt).map
    (fun obj => { obj with m_Transform2D.Translation :=
      obj.m_Transform2D.Translation + dt • obj.m_RigidBody2D.Velocity })

/-- `GravityPhysicsSystem::Update (objs, dt, substeps)`: `substeps` is converted
to a scalar for the division, and the loop counter runs over
`0, ..., substeps - 1` (a natural number here; the `int` counter of the source
does not overflow for `substeps` up to `INT_MAX`). -/
def GravityPhysicsSystem.Update (self : GravityPhysicsSystem α) (fns : MathFns α)
    (objs : List (VEGameObject α)) (dt : α) (substeps : Nat) : List (VEGameObject α) :=
  let stepDelta := dt / (substeps : α)
  (List.range substeps).foldl (fun objs _ => self.StepSimulation fns objs stepDelta) objs

/-- The net field vector `direction` that `Vec2FieldSystem::Update` accumulates
for the field line `vf`, starting from the zero vector. -/
def Vec2FieldSystem.direction (fns : MathFns α) (physicsSystem : GravityPhysicsSystem α)
    (physicsObjs : List (VEGameObject α)) (vf : VEGameObject α) : Vec2 α :=
  physicsObjs.foldl (fun direction obj => direction + physicsSystem.ComputeForce fns obj vf) 0

/-- `Vec2FieldSystem::Update (physicsSystem, physicsObjs, vectorField)`: both
vectors are passed by reference, so both are returned.  The arithmetic is
exact: the `float` operations of the source are taken without rounding.  The
accumulation and the value of `Scale.x` with every operation rounded are
`Vec2FieldSystem.directionRounded` and `Vec2FieldSystem.scaleRounded`. -/
def Vec2FieldSystem.Update (fns : MathFns α) (physicsSystem : GravityPhysicsSystem α)
    (physicsObjs vectorField : List (VEGameObject α)) :
    List (VEGameObject α) × List (VEGameObject α) :=
  (physicsObjs, vectorField.map (fun vf =>
    let direction := Vec2FieldSystem.direction fns physicsSystem physicsObjs vf
    let vf1 := { vf with m_Transform2D.Scale.x :=
      0.005 + 0.045 * clamp (fns.log (length fns direction + 1) / 3) 0 1 }
    { vf1 with m_Transform2D.Rotation := fns.atan2 direction.y direction.x }))

end code

section spec

variable {α : Type} [LinearOrderedField α]

/-- The spec's "applies `StepOnce` that many times sequentially". -/
def applySequentially {σ : Type} (step : σ → σ) : Nat → σ → σ
  | 0, st => st
  | n + 1, st => applySequentially step n (step st)

/-- The spec's `Advance`: `dt` is subdivided into `substeps` equal sub-intervals
and `StepOnce` is applied that many times, one after the other. -/
def AdvanceSpec (self : GravityPhysicsSystem α) (fns : MathFns α)
    (bodies : List (VEGameObject α)) (dt : α) (substeps : Nat) : List (VEGameObject α) :=
  applySequentially (fun bs => self.StepSimulation fns bs (dt / (substeps : α))) substeps bodies

/-- A game object with the given position, velocity and mass (model handle 0,
white, unit scale, no rotation), used for concrete instances. -/
def sampleObject (px py vx vy m : α) : VEGameObject α :=
  { m_Model := 0
    m_Color := ⟨1, 1, 1⟩
    m_Transform2D := { Translation := ⟨px, py⟩, Scale := ⟨1, 1⟩, Rotation := 0 }
    m_RigidBody2D := { Velocity := ⟨vx, vy⟩, Mass := m } }

end spec

/-! ## Auxiliary definitions for the statements and proofs -/

section auxiliary

variable {α : Type} [LinearOrderedField α]

/-- The body list `objs` with the velocity of the body at position `i` replaced
by `v i`; every other field is kept. -/
def withVelocities (objs : List (VEGameObject α)) (v : Nat → Vec2 α) : List (VEGameObject α) :=
  objs.mapIdx (fun i obj => { obj with m_RigidBody2D.Velocity := v i })

/-- The velocity change that the pass of the inner loop of `StepSimulation` for
the positions `a`, `b` gives to the body at position `i`, the force being
evaluated on the bodies of `objs` (`d` stands for a body out of range). -/
def pairKick (self : GravityPhysicsSystem α) (fns : MathFns α) (objs : List (VEGameObject α))
    (d : VEGameObject α) (dt : α) (a b i : Nat) : Vec2 α :=
  (if i = a then
      (dt • -self.ComputeForce fns (objs.getD a d) (objs.getD b d))
        / (objs.getD a d).m_RigidBody2D.Mass
    else 0) +
  (if i = b then
      (dt • self.ComputeForce fns (objs.getD a d) (objs.getD b d))
        / (objs.getD b d).m_RigidBody2D.Mass
    else 0)

/-- The sum of the velocity changes of all passes of the loop nest of
`StepSimulation` on the body at position `i`, in the order of the loops. -/
def netKick (self : GravityPhysicsSystem α) (fns : MathFns α) (objs : List (VEGameObject α))
    (d : VEGameObject α) (dt : α) (i : Nat) : Vec2 α :=
  ((List.range objs.length).map (fun a =>
    ((List.range' a (objs.length - a)).map
      (fun b => if a = b then 0 else pairKick self fns objs d dt a b i)).sum)).sum

/-- The total momentum of a body list: the sum of `Mass * Velocity` over the
bodies. -/
def totalMomentum (objs : List (VEGameObject α)) : Vec2 α :=
  (objs.map (fun obj => obj.m_RigidBody2D.Mass • obj.m_RigidBody2D.Velocity)).sum

end auxiliary

section frame

variable {α : Type} [LinearOrderedField α]

/-- The fields of a game object other than its position and velocity: model
handle, colour, visual scale, visual rotation and mass. -/
def nonKinematic (obj : VEGameObject α) : Nat × Vec3 α × Vec2 α × α × α :=
  (obj.m_Model, obj.m_Color, obj.m_Transform2D.Scale, obj.m_Transform2D.Rotation,
    obj.m_RigidBody2D.Mass)

end frame

section angular

variable {α : Type} [LinearOrderedField α]

/-- The two-dimensional cross product `u.x * v.y - u.y * v.x`. -/
def cross (u v : Vec2 α) : α := u.x * v.y - u.y * v.x

/-- The total angular momentum of a body list about the origin: the sum of
`Mass * (Translation.x * Velocity.y - Translation.y * Velocity.x)` over the
bodies. -/
def totalAngularMomentum (objs : List (VEGameObject α)) : α :=
  (objs.map (fun obj => obj.m_RigidBody2D.Mass *
    (obj.m_Transform2D.Translation.x * obj.m_RigidBody2D.Velocity.y
      - obj.m_Transform2D.Translation.y * obj.m_RigidBody2D.Velocity.x))).sum

end angular

/-! ## The operations with every division checked -/

section checked

variable {α : Type} [LinearOrderedField α]

/-- Division of scalars that fails on a zero divisor. -/
def checkedDiv (x y : α) : Option α :=
  if y = 0 then none else some (x / y)

/-- Division of a vector by a scalar that fails on a zero divisor. -/
def Vec2.checkedDiv (v : Vec2 α) (s : α) : Option (Vec2 α) :=
  if s = 0 then none else some (v / s)

/-- `GravityPhysicsSystem::ComputeForce` with its two divisions, by
`distanceSquared` and by `glm::sqrt (distanceSquared)`, checked. -/
def GravityPhysicsSystem.ComputeForceChecked (self : GravityPhysicsSystem α) (fns : MathFns α)
    (fromObj toObj : VEGameObject α) : Option (Vec2 α) :=
  let offset := fromObj.m_Transform2D.Translation - toObj.m_Transform2D.Translation
  let distanceSquared := dot offset offset
  if |distanceSquared| < 1e-10 then
    some ⟨0, 0⟩
  else do
    let force ← checkedDiv
      (self.m_StrengthGravity * toObj.m_RigidBody2D.Mass * fromObj.m_RigidBody2D.Mass)
      distanceSquared
    Vec2.checkedDiv (force • offset) (fns.sqrt distanceSquared)

/-- One pass of the inner loop body of `StepSimulation` with the force
evaluation and the divisions by the two masses checked. -/
def GravityPhysicsSystem.applyPairChecked (self : GravityPhysicsSystem α) (fns : MathFns α)
    (dt : α) (a b : Nat) (physicsObjs : List (VEGameObject α)) :
    Option (List (VEGameObject α)) :=
  match physicsObjs[a]?, physicsObjs[b]? with
  | some objA, some objB => do
    let force ← self.ComputeForceChecked fns objA objB
    let kickA ← Vec2.checkedDiv (dt • -force) objA.m_RigidBody2D.Mass
    let physicsObjs1 := physicsObjs.modify
      (fun obj => { obj with m_RigidBody2D.Velocity := obj.m_RigidBody2D.Velocity + kickA }) a
    let kickB ← Vec2.checkedDiv (dt • force) objB.m_RigidBody2D.Mass
    pure (physicsObjs1.modify
      (fun obj => { obj with m_RigidBody2D.Velocity := obj.m_RigidBody2D.Velocity + kickB }) b)
  | _, _ => some physicsObjs

/-- The first loop nest of `StepSimulation` with every division checked. -/
def GravityPhysicsSystem.applyForcesChecked (self : GravityPhysicsSystem α) (fns : MathFns α)
    (physicsObjs : List (VEGameObject α)) (dt : α) : Option (List (VEGameObject α)) :=
  (List.range physicsObjs.length).foldlM
    (fun objs a =>
      (List.range' a (physicsObjs.length - a)).foldlM
        (fun objs b => if a = b then some objs else self.applyPairChecked fns dt a b objs) objs)
    physicsObjs

/-- `GravityPhysicsSystem::StepSimulation` with every division checked (the
position loop has none). -/
def GravityPhysicsSystem.StepSimulationChecked (self : GravityPhysicsSystem α) (fns : MathFns α)
    (physicsObjs : List (VEGameObject α)) (dt : α) : Option (List (VEGameObject α)) := do
  let objs ← self.applyForcesChecked fns physicsObjs dt
  pure (objs.map
    (fun obj => { obj with m_Transform2D.Translation :=
      obj.m_Transform2D.Translation + dt • obj.m_RigidBody2D.Velocity }))

/-- `GravityPhysicsSystem::Update` with every division checked, the division
of `dt` by `substeps` included. -/
def GravityPhysicsSystem.UpdateChecked (self : GravityPhysicsSystem α) (fns : MathFns α)
    (objs : List (VEGameObject α)) (dt : α) (substeps : Nat) : Option (List (VEGameObject α)) := do
  let stepDelta ← checkedDiv dt (substeps : α)
  (List.range substeps).foldlM (fun objs _ => self.StepSimulationChecked fns objs stepDelta) objs

/-- The accumulation of `direction` in `Vec2FieldSystem::Update` with the
divisions of every force evaluation checked. -/
def Vec2FieldSystem.directionChecked (fns : MathFns α) (physicsSystem : GravityPhysicsSystem α)
    (physicsObjs : List (VEGameObject α)) (vf : VEGameObject α) : Option (Vec2 α) :=
  physicsObjs.foldlM
    (fun direction obj => do
      let force ← physicsSystem.ComputeForceChecked fns obj vf
      pure (direction + force)) 0

/-- `Vec2FieldSystem::Update` with every division checked, the division by
`3.f` included. -/
def Vec2FieldSystem.UpdateChecked (fns : MathFns α) (physicsSystem : GravityPhysicsSystem α)
    (physicsObjs vectorField : List (VEGameObject α)) :
    Option (List (VEGameObject α) × List (VEGameObject α)) := do
  let vectorField1 ← vectorField.mapM (fun vf => do
    let direction ← Vec2FieldSystem.directionChecked fns physicsSystem physicsObjs vf
    let t ← checkedDiv (fns.log (length fns direction + 1)) 3
    let vf1 := { vf with m_Transform2D.Scale.x := 0.005 + 0.045 * clamp t 0 1 }
    pure { vf1 with m_Transform2D.Rotation := fns.atan2 direction.y direction.x })
  pure (physicsObjs, vectorField1)

end checked

section symmetric

variable {α : Type} [LinearOrderedField α]

/-- One step of two bodies of mass 1 at `(x, 0)` and `(-x, 0)` with velocities
`(v, 0)` and `(-v, 0)` under `G = 1`, as a map on the pair `(x, v)`: the
velocity loses `h / (4 * x ^ 2)`, then the position gains `h` times the new
velocity. -/
def symmetricStep (h : α) (s : α × α) : α × α :=
  (s.1 + h * (s.2 - h / (4 * s.1 ^ 2)), s.2 - h / (4 * s.1 ^ 2))

end symmetric

/-! ## Binary32 arithmetic

The definitions above take the `float` operations of the source as exact.  The
two places where rounding changes a discrete outcome, the guard of
`ComputeForce` and the absorption in `glm::length (direction) + 1`, are embedded
again below with every `float` operation followed by a rounding operator `rnd`;
`round32` is rounding to the nearest binary32 value, ties to even, on the
rationals (finite values only: no overflow to infinity, no NaN, no signed
zero).  Each operation of the source is rounded on its own: no contraction of a
product and a sum into a fused multiply-add, no evaluation in a wider format. -/

section binary32

/-- Rounding of a rational to the nearest integer, ties to the even one. -/
def roundHalfEven (q : ℚ) : ℤ :=
  if q - ⌊q⌋ < 1 / 2 then ⌊q⌋
  else if 1 / 2 < q - ⌊q⌋ then ⌊q⌋ + 1
  else if ⌊q⌋ % 2 = 0 then ⌊q⌋ else ⌊q⌋ + 1

/-- Search of the binade of `ax`: `u` is the spacing of the binary32 values
below the bound `b`, and both double until `ax < b`. -/
def ulpSearch : Nat → ℚ → ℚ → ℚ → ℚ
  | 0, _, u, _ => u
  | fuel + 1, ax, u, b => if ax < b then u else ulpSearch fuel ax (2 * u) (2 * b)

/-- The spacing of the binary32 values around a number of absolute value `ax`:
`2 ^ (-149)` below `2 ^ (-125)` (subnormal numbers and the first binade), then
doubling with each binade, up to `2 ^ 104`. -/
def ulp32 (ax : ℚ) : ℚ := ulpSearch 253 ax (1 / 2 ^ 149) (1 / 2 ^ 125)

/-- Rounding to the nearest binary32 value, ties to even. -/
def round32 (x : ℚ) : ℚ := roundHalfEven (x / ulp32 |x|) * ulp32 |x|

/-- The integer square root by bits: the largest `r` below `2 ^ bits` (added
to the starting value) with `r * r ≤ n`. -/
def isqrtBits (n : Nat) : Nat → Nat → Nat
  | 0, r => r
  | i + 1, r =>
    if (r + 2 ^ i) * (r + 2 ^ i) ≤ n then isqrtBits n i (r + 2 ^ i) else isqrtBits n i r

/-- The binary32 square root, correctly rounded as IEEE 754 demands: the square
root to 200 binary places, with half a unit added when it is inexact, then
rounded.  Arguments that are not positive give 0. -/
def sqrt32 (x : ℚ) : ℚ :=
  if x ≤ 0 then 0
  else if ((isqrtBits ⌊x * 4 ^ 200⌋.toNat 400 0 * isqrtBits ⌊x * 4 ^ 200⌋.toNat 400 0 : Nat) : ℚ)
      = x * 4 ^ 200 then
    round32 ((isqrtBits ⌊x * 4 ^ 200⌋.toNat 400 0 : ℚ) / 2 ^ 200)
  else
    round32 ((2 * (isqrtBits ⌊x * 4 ^ 200⌋.toNat 400 0 : ℚ) + 1) / 2 ^ 201)

/-- The sum of the first `n` terms of the series of `artanh z`. -/
def artanhSeries (z : ℚ) : Nat → ℚ
  | 0 => 0
  | n + 1 => artanhSeries z n + z ^ (2 * n + 1) / (2 * n + 1)

/-- Reduction of a positive number to `[1, 2)`: the pair `(k, m)` with
`x = 2 ^ k * m`, found by halving or doubling. -/
def binadeReduce : Nat → ℤ → ℚ → ℤ × ℚ
  | 0, k, m => (k, m)
  | fuel + 1, k, m =>
    if 2 ≤ m then binadeReduce fuel (k + 1) (m / 2)
    else if m < 1 then binadeReduce fuel (k - 1) (2 * m)
    else (k, m)

/-- A model of the binary32 natural logarithm: `ln x = k * ln 2 + 2 * artanh
((m - 1) / (m + 1))` for `x = 2 ^ k * m`, with `ln 2` to 25 decimal places and
20 terms of the series, then rounded.  It is exactly 0 at 1; arguments that are
not positive give 0. -/
def log32 (x : ℚ) : ℚ :=
  if x ≤ 0 then 0
  else
    round32 ((binadeReduce 300 0 x).1 * 0.6931471805599453094172321
      + 2 * artanhSeries (((binadeReduce 300 0 x).2 - 1) / ((binadeReduce 300 0 x).2 + 1)) 20)

end binary32

section rounded

variable {α : Type} [LinearOrderedField α]

/-- `glm::dot` on `glm::vec2` with the two products and the sum rounded. -/
def dotRounded (rnd : α → α) (u v : Vec2 α) : α :=
  rnd (rnd (u.x * v.x) + rnd (u.y * v.y))

/-- `GravityPhysicsSystem::ComputeForce (fromObj, toObj)` with every `float`
operation followed by `rnd`; `sqrtf` is `glm::sqrt` on `float`, and the
threshold is the `float` literal `1e-10f`.  With `rnd` the identity this is
`ComputeForce`. -/
def GravityPhysicsSystem.ComputeForceRounded (self : GravityPhysicsSystem α) (rnd sqrtf : α → α)
    (fromObj toObj : VEGameObject α) : Vec2 α :=
  let offset : Vec2 α :=
    ⟨rnd (fromObj.m_Transform2D.Translation.x - toObj.m_Transform2D.Translation.x),
      rnd (fromObj.m_Transform2D.Translation.y - toObj.m_Transform2D.Translation.y)⟩
  let distanceSquared := dotRounded rnd offset offset
  if |distanceSquared| < rnd 1e-10 then
    ⟨0, 0⟩
  else
    let force := rnd (rnd (rnd (self.m_StrengthGravity * toObj.m_RigidBody2D.Mass)
      * fromObj.m_RigidBody2D.Mass) / distanceSquared)
    ⟨rnd (rnd (force * offset.x) / sqrtf distanceSquared),
      rnd (rnd (force * offset.y) / sqrtf distanceSquared)⟩

/-- The accumulation of `direction` in `Vec2FieldSystem::Update` with every
`float` operation followed by `rnd`. -/
def Vec2FieldSystem.directionRounded (rnd sqrtf : α → α) (physicsSystem : GravityPhysicsSystem α)
    (physicsObjs : List (VEGameObject α)) (vf : VEGameObject α) : Vec2 α :=
  physicsObjs.foldl
    (fun direction obj =>
      ⟨rnd (direction.x + (physicsSystem.ComputeForceRounded rnd sqrtf obj vf).x),
        rnd (direction.y + (physicsSystem.ComputeForceRounded rnd sqrtf obj vf).y)⟩) 0

/-- The value `Vec2FieldSystem::Update` assigns to `Scale.x` for the accumulated
`direction`, with every `float` operation followed by `rnd`; `sqrtf` and `logf`
are `glm::sqrt` and `glm::log` on `float`, and `0.005f`, `0.045f` are `float`
literals. -/
def Vec2FieldSystem.scaleRounded (rnd sqrtf logf : α → α) (direction : Vec2 α) : α :=
  rnd (rnd 0.005 + rnd (rnd 0.045 *
    clamp (rnd (logf (rnd (sqrtf (dotRounded rnd direction direction) + 1)) / 3)) 0 1))

end rounded

/-! ## Componentwise lemmas on vectors -/

namespace Vec2

variable {α : Type}

@[simp]
theorem zero_x [Zero α] : (0 : Vec2 α).x = 0 := rfl

@[simp]
theorem zero_y [Zero α] : (0 : Vec2 α).y = 0 := rfl

@[simp]
theorem add_x [Add α] (u v : Vec2 α) : (u + v).x = u.x + v.x := rfl

@[simp]
theorem add_y [Add α] (u v : Vec2 α) : (u + v).y = u.y + v.y := rfl

@[simp]
theorem neg_x [Neg α] (u : Vec2 α) : (-u).x = -u.x := rfl

@[simp]
theorem neg_y [Neg α] (u : Vec2 α) : (-u).y = -u.y := rfl

@[simp]
theorem sub_x [Sub α] (u v : Vec2 α) : (u - v).x = u.x - v.x := rfl

@[simp]
theorem sub_y [Sub α] (u v : Vec2 α) : (u - v).y = u.y - v.y := rfl

@[simp]
theorem smul_x [Mul α] (s : α) (v : Vec2 α) : (s • v).x = s * v.x := rfl

@[simp]
theorem smul_y [Mul α] (s : α) (v : Vec2 α) : (s • v).y = s * v.y := rfl

@[simp]
theorem div_x [Div α] (v : Vec2 α) (s : α) : (v / s).x = v.x / s := rfl

@[simp]
theorem div_y [Div α] (v : Vec2 α) (s : α) : (v / s).y = v.y / s := rfl

@[simp]
theorem mk_add_mk [Add α] (a b c d : α) : (⟨a, b⟩ : Vec2 α) + ⟨c, d⟩ = ⟨a + c, b + d⟩ := rfl

@[simp]
theorem mk_sub_mk [Sub α] (a b c d : α) : (⟨a, b⟩ : Vec2 α) - ⟨c, d⟩ = ⟨a - c, b - d⟩ := rfl

@[simp]
theorem neg_mk [Neg α] (a b : α) : -(⟨a, b⟩ : Vec2 α) = ⟨-a, -b⟩ := rfl

@[simp]
theorem smul_mk [Mul α] (s a b : α) : s • (⟨a, b⟩ : Vec2 α) = ⟨s * a, s * b⟩ := rfl

@[simp]
theorem mk_div [Div α] (a b s : α) : (⟨a, b⟩ : Vec2 α) / s = ⟨a / s, b / s⟩ := rfl

theorem zero_def [Zero α] : (0 : Vec2 α) = ⟨0, 0⟩ := rfl

end Vec2

/-! ## The force law -/

section force

variable {α : Type} [LinearOrderedField α]

theorem dot_self_nonneg (v : Vec2 α) : 0 ≤ dot v v :=
  add_nonneg (mul_self_nonneg _) (mul_self_nonneg _)

theorem dot_neg_neg (u v : Vec2 α) : dot (-u) (-v) = dot u v := by
  simp [dot]

theorem dotRounded_id (u v : Vec2 α) : dotRounded id u v = dot u v := rfl

theorem ComputeForceRounded_id (self : GravityPhysicsSystem α) (fns : MathFns α)
    (fromObj toObj : VEGameObject α) :
    self.ComputeForceRounded id fns.sqrt fromObj toObj = self.ComputeForce fns fromObj toObj := by
  unfold GravityPhysicsSystem.ComputeForceRounded GravityPhysicsSystem.ComputeForce
  simp only [dotRounded_id, id]
  rfl

theorem directionRounded_id (fns : MathFns α) (physicsSystem : GravityPhysicsSystem α)
    (physicsObjs : List (VEGameObject α)) (vf : VEGameObject α) :
    Vec2FieldSystem.directionRounded id fns.sqrt physicsSystem physicsObjs vf =
      Vec2FieldSystem.direction fns physicsSystem physicsObjs vf := by
  unfold Vec2FieldSystem.directionRounded Vec2FieldSystem.direction
  simp only [ComputeForceRounded_id, id]
  rfl

theorem scaleRounded_id (fns : MathFns α) (direction : Vec2 α) :
    Vec2FieldSystem.scaleRounded id fns.sqrt fns.log direction =
      0.005 + 0.045 * clamp (fns.log (length fns direction + 1) / 3) 0 1 := rfl

/-- C2 (as stated, refuted in binary32): with `G = 1`, a body of mass 1 at
`(10995116 / 2 ^ 40, 8388609 / 2 ^ 52)` (the binary32 values `9.99999975e-06`
and `1.86264537e-09`) and a body of mass 1 at the origin, the squared distance
is strictly below `1e-10`, yet `ComputeForce` in binary32 arithmetic does not
take the guarded branch (the rounded squared distance equals the rounded
threshold `1e-10f`) and returns `(1e10, 1862645.375)`, not the zero vector. -/
theorem ComputeForce_degenerate_counterexample :
    dot ((sampleObject (10995116 / 2 ^ 40 : ℚ) (8388609 / 2 ^ 52) 0 0 1).m_Transform2D.Translation
        - (sampleObject (0 : ℚ) 0 0 0 1).m_Transform2D.Translation)
      ((sampleObject (10995116 / 2 ^ 40 : ℚ) (8388609 / 2 ^ 52) 0 0 1).m_Transform2D.Translation
        - (sampleObject (0 : ℚ) 0 0 0 1).m_Transform2D.Translation) < 1e-10 ∧
    (GravityPhysicsSystem.mk (1 : ℚ)).ComputeForceRounded round32 sqrt32
      (sampleObject (10995116 / 2 ^ 40) (8388609 / 2 ^ 52) 0 0 1) (sampleObject 0 0 0 0 1)
        = ⟨10000000000, 14901163 / 8⟩ ∧
    (GravityPhysicsSystem.mk (1 : ℚ)).ComputeForceRounded round32 sqrt32
      (sampleObject (10995116 / 2 ^ 40) (8388609 / 2 ^ 52) 0 0 1) (sampleObject 0 0 0 0 1)
        ≠ ⟨0, 0⟩ := by
  decide!

/-- C2 (amended): for every rounding operator `rnd` that fixes 0 and rounds
`1e-10` to a positive threshold (the identity of exact arithmetic and `round32`
are two), every square root function, every `G` and every pair of bodies:
whenever the squared distance as the code computes it (the offset, the two
products and their sum each rounded by `rnd`) is strictly below the rounded
threshold, and in particular whenever the two bodies are at the same position,
whatever their masses, `ComputeForce` returns exactly the zero vector `(0, 0)`. -/
theorem ComputeForceRounded_degenerate (rnd sqrtf : α → α) (hzero : rnd 0 = 0)
    (hthr : 0 < rnd 1e-10) (self : GravityPhysicsSystem α) (source target : VEGameObject α)
    (h : source.m_Transform2D.Translation = target.m_Transform2D.Translation ∨
      |dotRounded rnd
          ⟨rnd (source.m_Transform2D.Translation.x - target.m_Transform2D.Translation.x),
            rnd (source.m_Transform2D.Translation.y - target.m_Transform2D.Translation.y)⟩
          ⟨rnd (source.m_Transform2D.Translation.x - target.m_Transform2D.Translation.x),
            rnd (source.m_Transform2D.Translation.y - target.m_Transform2D.Translation.y)⟩|
        < rnd 1e-10) :
    self.ComputeForceRounded rnd sqrtf source target = ⟨0, 0⟩ := by
  have hd : |dotRounded rnd
          ⟨rnd (source.m_Transform2D.Translation.x - target.m_Transform2D.Translation.x),
            rnd (source.m_Transform2D.Translation.y - target.m_Transform2D.Translation.y)⟩
          ⟨rnd (source.m_Transform2D.Translation.x - target.m_Transform2D.Translation.x),
            rnd (source.m_Transform2D.Translation.y - target.m_Transform2D.Translation.y)⟩|
        < rnd 1e-10 := by
    rcases h with h | h
    · rw [h]
      simp only [dotRounded, sub_self, hzero, mul_zero, add_zero, abs_zero]
      exact hthr
    · exact h
  unfold GravityPhysicsSystem.ComputeForceRounded
  simp only [if_pos hd]

/-- In binary32 arithmetic with `G = 5`: two bodies of masses 2 and 7 at the
same position `(3, 4)`, and two bodies of masses 2 and 7 at `(2 ^ (-20), 0)`
and the origin, whose computed squared distance `2 ^ (-40)` is below `1e-10f`:
the force is the zero vector both times. -/
theorem ComputeForceRounded_degenerate_witness :
    round32 0 = 0 ∧ 0 < round32 1e-10 ∧
    ((sampleObject (3 : ℚ) 4 1 0 2).m_Transform2D.Translation
        = (sampleObject (3 : ℚ) 4 0 1 7).m_Transform2D.Translation) ∧
    (GravityPhysicsSystem.mk (5 : ℚ)).ComputeForceRounded round32 sqrt32
      (sampleObject 3 4 1 0 2) (sampleObject 3 4 0 1 7) = ⟨0, 0⟩ ∧
    |dotRounded round32
        ⟨round32 ((sampleObject (1 / 2 ^ 20 : ℚ) 0 0 0 2).m_Transform2D.Translation.x
            - (sampleObject (0 : ℚ) 0 0 0 7).m_Transform2D.Translation.x),
          round32 ((sampleObject (1 / 2 ^ 20 : ℚ) 0 0 0 2).m_Transform2D.Translation.y
            - (sampleObject (0 : ℚ) 0 0 0 7).m_Transform2D.Translation.y)⟩
        ⟨round32 ((sampleObject (1 / 2 ^ 20 : ℚ) 0 0 0 2).m_Transform2D.Translation.x
            - (sampleObject (0 : ℚ) 0 0 0 7).m_Transform2D.Translation.x),
          round32 ((sampleObject (1 / 2 ^ 20 : ℚ) 0 0 0 2).m_Transform2D.Translation.y
            - (sampleObject (0 : ℚ) 0 0 0 7).m_Transform2D.Translation.y)⟩| < round32 1e-10 ∧
    (GravityPhysicsSystem.mk (5 : ℚ)).ComputeForceRounded round32 sqrt32
      (sampleObject (1 / 2 ^ 20) 0 0 0 2) (sampleObject 0 0 0 0 7) = ⟨0, 0⟩ :=
  ⟨by decide!, by decide!, rfl,
    ComputeForceRounded_degenerate round32 sqrt32 (by decide!) (by decide!) _ _ _ (Or.inl rfl),
    by decide!,
    ComputeForceRounded_degenerate round32 sqrt32 (by decide!) (by decide!) _ _ _
      (Or.inr (by decide!))⟩

theorem ComputeForce_neg_swap (self : GravityPhysicsSystem α) (fns : MathFns α)
    (A B : VEGameObject α) :
    self.ComputeForce fns A B = -self.ComputeForce fns B A := by
  have hoff : A.m_Transform2D.Translation - B.m_Transform2D.Translation
      = -(B.m_Transform2D.Translation - A.m_Transform2D.Translation) := by
    ext <;> simp
  unfold GravityPhysicsSystem.ComputeForce
  simp only [hoff, dot_neg_neg]
  split_ifs with h
  · ext <;> simp
  · ext <;> simp <;> ring

/-- C3: for all bodies `A`, `B` (at nonzero distance, and at zero distance as
well) and every gravitational constant, `ComputeForce (A, B)` is the negation of
`ComputeForce (B, A)`, component by component. -/
theorem ComputeForce_antisymm (self : GravityPhysicsSystem α) (fns : MathFns α)
    (A B : VEGameObject α) :
    self.ComputeForce fns A B = -self.ComputeForce fns B A :=
  ComputeForce_neg_swap self fns A B

end force

/-- C1: over the real numbers, with `offset = position (source) - position
(target)` and `|offset|^2 >= 1e-10`, `ComputeForce (source, target)` is
`G * mass (target) * mass (source) * offset / |offset|^3`, where `|offset|` is
the real square root of `dot (offset, offset)`. -/
theorem ComputeForce_inverse_cube (self : GravityPhysicsSystem ℝ) (fns : MathFns ℝ)
    (hsqrt : fns.sqrt = Real.sqrt) (source target : VEGameObject ℝ)
    (h : 1e-10 ≤ dot (source.m_Transform2D.Translation - target.m_Transform2D.Translation)
        (source.m_Transform2D.Translation - target.m_Transform2D.Translation)) :
    self.ComputeForce fns source target =
      ((self.m_StrengthGravity * target.m_RigidBody2D.Mass * source.m_RigidBody2D.Mass) •
          (source.m_Transform2D.Translation - target.m_Transform2D.Translation)) /
        Real.sqrt (dot (source.m_Transform2D.Translation - target.m_Transform2D.Translation)
          (source.m_Transform2D.Translation - target.m_Transform2D.Translation)) ^ 3 := by
  set offset := source.m_Transform2D.Translation - target.m_Transform2D.Translation with hoff
  have hpos : (0 : ℝ) < 1e-10 := by norm_num
  have hd : 0 < dot offset offset := lt_of_lt_of_le hpos h
  have hnot : ¬ |dot offset offset| < 1e-10 := by
    rw [abs_of_nonneg hd.le]
    exact not_lt.mpr h
  have hs : 0 < Real.sqrt (dot offset offset) := Real.sqrt_pos.mpr hd
  have hcube : Real.sqrt (dot offset offset) ^ 3
      = dot offset offset * Real.sqrt (dot offset offset) := by
    have hsq := Real.sq_sqrt hd.le
    calc Real.sqrt (dot offset offset) ^ 3
        = Real.sqrt (dot offset offset) ^ 2 * Real.sqrt (dot offset offset) := by ring
      _ = dot offset offset * Real.sqrt (dot offset offset) := by rw [hsq]
  unfold GravityPhysicsSystem.ComputeForce
  simp only [← hoff, if_neg hnot, hsqrt, hcube]
  ext <;> simp <;> field_simp

/-- A source of mass 2 at `(3, 4)` and a target of mass 5 at the origin, with
`G = 1` over the reals: the squared distance is 25, the distance 5, and the
force `10 * (3, 4) / 125 = (6 / 25, 8 / 25)`. -/
theorem ComputeForce_inverse_cube_witness :
    (MathFns.mk Real.sqrt Real.log (fun y x => (Complex.mk x y).arg)).sqrt = Real.sqrt ∧
    (1e-10 : ℝ) ≤
      dot ((sampleObject (3 : ℝ) 4 0 0 2).m_Transform2D.Translation
          - (sampleObject (0 : ℝ) 0 0 0 5).m_Transform2D.Translation)
        ((sampleObject (3 : ℝ) 4 0 0 2).m_Transform2D.Translation
          - (sampleObject (0 : ℝ) 0 0 0 5).m_Transform2D.Translation) ∧
    (GravityPhysicsSystem.mk (1 : ℝ)).ComputeForce
        (MathFns.mk Real.sqrt Real.log (fun y x => (Complex.mk x y).arg))
        (sampleObject 3 4 0 0 2) (sampleObject 0 0 0 0 5) = ⟨6 / 25, 8 / 25⟩ :=
  ⟨rfl, by norm_num [sampleObject, dot],
    (ComputeForce_inverse_cube _ _ rfl _ _ (by norm_num [sampleObject, dot])).trans (by
      have h25 : Real.sqrt 25 = 5 := by
        rw [show (25 : ℝ) = 5 ^ 2 by norm_num, Real.sqrt_sq (by norm_num)]
      have hd : dot ((⟨3, 4⟩ : Vec2 ℝ) - ⟨0, 0⟩) ((⟨3, 4⟩ : Vec2 ℝ) - ⟨0, 0⟩) = 25 := by
        norm_num [dot]
      simp only [sampleObject, hd, h25]
      ext <;> norm_num)⟩

/-! ## Sub-stepping -/

section substeps

variable {α : Type} [LinearOrderedField α]

theorem foldl_const_eq_applySequentially {σ β : Type} (step : σ → σ) (l : List β) (st : σ) :
    l.foldl (fun s _ => step s) st = applySequentially step l.length st := by
  induction l generalizing st with
  | nil => rfl
  | cons b l ih => simpa [applySequentially] using ih (step st)

/-- C4: for every body list, every `dt` and every number of sub-steps (positive
or not), `Update` produces exactly the list obtained by applying
`StepSimulation` with the sub-interval `dt / substeps`, one application after
the other, `substeps` times; and `Update` with one sub-step is one
`StepSimulation` with `dt`. -/
theorem Update_eq_AdvanceSpec (self : GravityPhysicsSystem α) (fns : MathFns α)
    (objs : List (VEGameObject α)) (dt : α) (substeps : Nat) :
    self.Update fns objs dt substeps = AdvanceSpec self fns objs dt substeps ∧
      self.Update fns objs dt 1 = self.StepSimulation fns objs dt := by
  constructor
  · unfold GravityPhysicsSystem.Update AdvanceSpec
    simpa using foldl_const_eq_applySequentially
      (fun bs => self.StepSimulation fns bs (dt / (substeps : α))) (List.range substeps) objs
  · simp [GravityPhysicsSystem.Update, List.range_succ]

end substeps

/-! ## The pairwise velocity updates of one step -/

theorem getElem?_withVelocities {α : Type} (objs : List (VEGameObject α)) (v : Nat → Vec2 α) (i : Nat) :
    (withVelocities objs v)[i]? =
      (objs[i]?).map (fun obj => { obj with m_RigidBody2D.Velocity := v i }) := by
  simp [withVelocities, List.getElem?_mapIdx]

theorem withVelocities_self {α : Type} (objs : List (VEGameObject α)) (d : VEGameObject α) :
    withVelocities objs (fun i => (objs.getD i d).m_RigidBody2D.Velocity) = objs := by
  apply List.ext_getElem?
  intro m
  rw [getElem?_withVelocities]
  rcases hm : objs[m]? with _ | o
  · rfl
  · have ho : objs.getD m d = o := by
      rw [List.getD_eq_getElem?_getD, hm]; rfl
    simp only [Option.map_some', ho]

section step

variable {α : Type} [LinearOrderedField α]

theorem applyPair_withVelocities (self : GravityPhysicsSystem α) (fns : MathFns α)
    (objs : List (VEGameObject α)) (d : VEGameObject α) (dt : α) (v : Nat → Vec2 α)
    (a b : Nat) (ha : a < objs.length) (hb : b < objs.length) (hab : a ≠ b) :
    self.applyPair fns dt a b (withVelocities objs v) =
      withVelocities objs (fun i => v i + pairKick self fns objs d dt a b i) := by
  have hA : (withVelocities objs v)[a]? = some { objs[a] with m_RigidBody2D.Velocity := v a } := by
    rw [getElem?_withVelocities, List.getElem?_eq_getElem ha]; rfl
  have hB : (withVelocities objs v)[b]? = some { objs[b] with m_RigidBody2D.Velocity := v b } := by
    rw [getElem?_withVelocities, List.getElem?_eq_getElem hb]; rfl
  unfold GravityPhysicsSystem.applyPair
  rw [hA, hB]
  apply List.ext_getElem?
  intro m
  simp only [List.getElem?_modify, getElem?_withVelocities]
  rcases hm : objs[m]? with _ | o
  · simp
  · have hml : m < objs.length := by
      by_contra hcon
      rw [List.getElem?_eq_none (not_lt.mp hcon)] at hm
      cases hm
    have hmo : objs[m] = o := by
      rw [List.getElem?_eq_getElem hml] at hm
      exact Option.some.inj hm
    subst hmo
    simp only [Option.map_some', Option.map_eq_map, pairKick, List.getD_eq_getElem _ _ ha,
      List.getD_eq_getElem _ _ hb]
    by_cases h1 : a = m
    · have h2 : ¬ b = m := fun h => hab (h1.trans h.symm)
      subst h1
      simp only [if_true, if_neg h2, if_neg hab, add_zero]
      rfl
    · have h1' : ¬ m = a := fun h => h1 h.symm
      by_cases h2 : b = m
      · subst h2
        simp only [if_true, if_neg h1, if_neg h1', zero_add]
        rfl
      · have h2' : ¬ m = b := fun h => h2 h.symm
        simp only [if_neg h1, if_neg h1', if_neg h2, if_neg h2', add_zero]

theorem foldl_inner_withVelocities (self : GravityPhysicsSystem α) (fns : MathFns α)
    (objs : List (VEGameObject α)) (d : VEGameObject α) (dt : α) (a : Nat)
    (ha : a < objs.length) (l : List Nat) (hl : ∀ b ∈ l, b < objs.length) (v : Nat → Vec2 α) :
    l.foldl (fun st b => if a = b then st else self.applyPair fns dt a b st)
        (withVelocities objs v) =
      withVelocities objs (fun i => v i +
        (l.map (fun b => if a = b then 0 else pairKick self fns objs d dt a b i)).sum) := by
  induction l generalizing v with
  | nil => simp
  | cons b l ih =>
    have hb : b < objs.length := hl b (List.mem_cons_self b l)
    have hstep : (if a = b then withVelocities objs v
          else self.applyPair fns dt a b (withVelocities objs v)) =
        withVelocities objs
          (fun i => v i + (if a = b then 0 else pairKick self fns objs d dt a b i)) := by
      by_cases hab : a = b
      · simp [hab]
      · simp only [if_neg hab]
        exact applyPair_withVelocities self fns objs d dt v a b ha hb hab
    rw [List.foldl_cons, hstep, ih (fun b' hb' => hl b' (List.mem_cons_of_mem b hb'))]
    congr 1
    funext i
    rw [List.map_cons, List.sum_cons, add_assoc]

theorem foldl_outer_withVelocities (self : GravityPhysicsSystem α) (fns : MathFns α)
    (objs : List (VEGameObject α)) (d : VEGameObject α) (dt : α) (g : Nat → List Nat)
    (la : List Nat) (hla : ∀ a ∈ la, a < objs.length)
    (hg : ∀ a ∈ la, ∀ b ∈ g a, b < objs.length) (v : Nat → Vec2 α) :
    la.foldl (fun st a =>
        (g a).foldl (fun st b => if a = b then st else self.applyPair fns dt a b st) st)
        (withVelocities objs v) =
      withVelocities objs (fun i => v i +
        (la.map (fun a =>
          ((g a).map (fun b => if a = b then 0 else pairKick self fns objs d dt a b i)).sum)).sum) := by
  induction la generalizing v with
  | nil => simp
  | cons a la ih =>
    rw [List.foldl_cons,
      foldl_inner_withVelocities self fns objs d dt a (hla a (List.mem_cons_self a la)) (g a)
        (hg a (List.mem_cons_self a la)) v,
      ih (fun a' ha' => hla a' (List.mem_cons_of_mem a ha'))
        (fun a' ha' => hg a' (List.mem_cons_of_mem a ha'))]
    congr 1
    funext i
    rw [List.map_cons, List.sum_cons, add_assoc]

theorem applyForces_eq_withVelocities (self : GravityPhysicsSystem α) (fns : MathFns α)
    (objs : List (VEGameObject α)) (d : VEGameObject α) (dt : α) :
    self.applyForces fns objs dt =
      withVelocities objs (fun i =>
        (objs.getD i d).m_RigidBody2D.Velocity + netKick self fns objs d dt i) := by
  unfold GravityPhysicsSystem.applyForces
  have h := foldl_outer_withVelocities self fns objs d dt
    (fun a => List.range' a (objs.length - a)) (List.range objs.length)
    (fun a ha => List.mem_range.mp ha)
    (fun a ha b hb => by
      have h1 := List.mem_range.mp ha
      have h2 := List.mem_range'_1.mp hb
      omega)
    (fun i => (objs.getD i d).m_RigidBody2D.Velocity)
  rw [withVelocities_self objs d] at h
  exact h

theorem sum_map_range_eq {M : Type} [AddCommMonoid M] (f : Nat → M) (n : Nat) :
    ((List.range n).map f).sum = ∑ a ∈ Finset.range n, f a := by
  induction n with
  | zero => simp
  | succ n ih => rw [List.sum_range_succ, Finset.sum_range_succ, ih]

theorem sum_map_range'_eq {M : Type} [AddCommMonoid M] (f : Nat → M) (a k : Nat) :
    ((List.range' a k).map f).sum = ∑ b ∈ Finset.Ico a (a + k), f b := by
  rw [List.range'_eq_map_range, List.map_map, sum_map_range_eq, Finset.sum_Ico_eq_sum_range]
  simp

theorem netKick_eq_sum (self : GravityPhysicsSystem α) (fns : MathFns α)
    (objs : List (VEGameObject α)) (d : VEGameObject α) (dt : α) (i : Nat)
    (hi : i < objs.length) :
    netKick self fns objs d dt i =
      ∑ j ∈ Finset.range objs.length,
        if j = i then 0 else
          (dt / (objs.getD i d).m_RigidBody2D.Mass) •
            self.ComputeForce fns (objs.getD j d) (objs.getD i d) := by
  unfold netKick
  rw [sum_map_range_eq]
  have h1 : ∀ a ∈ Finset.range objs.length,
      ((List.range' a (objs.length - a)).map
        (fun b => if a = b then 0 else pairKick self fns objs d dt a b i)).sum =
      ∑ b ∈ Finset.range objs.length,
        ((if a < b ∧ i = a then
            (dt • -self.ComputeForce fns (objs.getD a d) (objs.getD b d))
              / (objs.getD a d).m_RigidBody2D.Mass else 0) +
         (if a < b ∧ i = b then
            (dt • self.ComputeForce fns (objs.getD a d) (objs.getD b d))
              / (objs.getD b d).m_RigidBody2D.Mass else 0)) := by
    intro a ha
    have han : a + (objs.length - a) = objs.length := by
      have := Finset.mem_range.mp ha
      omega
    rw [sum_map_range'_eq, han]
    have hIco : Finset.Ico a objs.length = (Finset.range objs.length).filter (fun b => a ≤ b) := by
      ext b
      simp [Finset.mem_Ico, Finset.mem_filter, and_comm]
    rw [hIco, Finset.sum_filter]
    apply Finset.sum_congr rfl
    intro b _
    unfold pairKick
    rcases lt_trichotomy a b with h | h | h
    · simp [h, h.le, h.ne]
    · simp [h]
    · simp [not_le.mpr h, not_lt.mpr h.le]
  rw [Finset.sum_congr rfl h1]
  have hmem : i ∈ Finset.range objs.length := Finset.mem_range.mpr hi
  simp only [Finset.sum_add_distrib]
  have hX : (∑ a ∈ Finset.range objs.length, ∑ b ∈ Finset.range objs.length,
        (if a < b ∧ i = a then
            (dt • -self.ComputeForce fns (objs.getD a d) (objs.getD b d))
              / (objs.getD a d).m_RigidBody2D.Mass else 0)) =
      ∑ j ∈ Finset.range objs.length,
        (if i < j then
            (dt • -self.ComputeForce fns (objs.getD i d) (objs.getD j d))
              / (objs.getD i d).m_RigidBody2D.Mass else 0) := by
    rw [Finset.sum_eq_single i]
    · apply Finset.sum_congr rfl
      intro b _
      simp
    · intro a _ hai
      apply Finset.sum_eq_zero
      intro b _
      rw [if_neg]
      exact fun h => hai h.2.symm
    · intro h
      exact absurd hmem h
  have hY : (∑ a ∈ Finset.range objs.length, ∑ b ∈ Finset.range objs.length,
        (if a < b ∧ i = b then
            (dt • self.ComputeForce fns (objs.getD a d) (objs.getD b d))
              / (objs.getD b d).m_RigidBody2D.Mass else 0)) =
      ∑ j ∈ Finset.range objs.length,
        (if j < i then
            (dt • self.ComputeForce fns (objs.getD j d) (objs.getD i d))
              / (objs.getD i d).m_RigidBody2D.Mass else 0) := by
    apply Finset.sum_congr rfl
    intro a _
    rw [Finset.sum_eq_single i]
    · simp
    · intro b _ hbi
      rw [if_neg]
      exact fun h => hbi h.2.symm
    · intro h
      exact absurd hmem h
  rw [hX, hY, ← Finset.sum_add_distrib]
  apply Finset.sum_congr rfl
  intro j _
  rcases lt_trichotomy j i with h | h | h
  · rw [if_neg (not_lt.mpr h.le), if_pos h, if_neg h.ne, zero_add]
    ext <;> simp <;> ring
  · simp [h]
  · rw [if_pos h, if_neg (not_lt.mpr h.le), if_neg h.ne', add_zero,
      ComputeForce_neg_swap self fns (objs.getD i d) (objs.getD j d)]
    ext <;> simp <;> ring

theorem applyForces_getElem? (self : GravityPhysicsSystem α) (fns : MathFns α)
    (objs : List (VEGameObject α)) (d : VEGameObject α) (dt : α) (i : Nat)
    (hi : i < objs.length) :
    (self.applyForces fns objs dt)[i]? =
      some { objs[i] with m_RigidBody2D.Velocity :=
        objs[i].m_RigidBody2D.Velocity + netKick self fns objs d dt i } := by
  rw [applyForces_eq_withVelocities self fns objs d dt, getElem?_withVelocities,
    List.getElem?_eq_getElem hi, List.getD_eq_getElem _ _ hi]
  rfl

theorem StepSimulation_getElem? (self : GravityPhysicsSystem α) (fns : MathFns α)
    (objs : List (VEGameObject α)) (d : VEGameObject α) (dt : α) (i : Nat)
    (hi : i < objs.length) :
    (self.StepSimulation fns objs dt)[i]? =
      some { objs[i] with
        m_RigidBody2D.Velocity :=
          objs[i].m_RigidBody2D.Velocity + netKick self fns objs d dt i
        m_Transform2D.Translation := objs[i].m_Transform2D.Translation +
          dt • (objs[i].m_RigidBody2D.Velocity + netKick self fns objs d dt i) } := by
  unfold GravityPhysicsSystem.StepSimulation
  rw [List.getElem?_map, applyForces_getElem? self fns objs d dt i hi]
  rfl

theorem netKick_eq_smul_sum (self : GravityPhysicsSystem α) (fns : MathFns α)
    (objs : List (VEGameObject α)) (dt : α) (i : Fin objs.length) :
    netKick self fns objs (objs.get i) dt i =
      (dt / (objs.get i).m_RigidBody2D.Mass) •
        ∑ j ∈ Finset.univ.erase i, self.ComputeForce fns (objs.get j) (objs.get i) := by
  rw [netKick_eq_sum self fns objs (objs.get i) dt i i.isLt, Finset.sum_range, Finset.smul_sum,
    ← Finset.filter_ne' Finset.univ i, Finset.sum_filter]
  apply Finset.sum_congr rfl
  intro j _
  have hji : ((j : Nat) = (i : Nat)) ↔ j = i := Fin.val_inj
  by_cases h : j = i
  · simp [h]
  · have h' : ¬ ((j : Nat) = (i : Nat)) := fun hc => h (hji.mp hc)
    rw [if_neg h', if_pos h, List.getD_eq_getElem _ _ j.isLt, List.getD_eq_getElem _ _ i.isLt]
    rfl

/-- C5: for every body list with nonzero masses and every `dt`, the velocity of
the body at position `i` after `StepSimulation` is its old velocity plus
`dt / mass_i` times the sum, over all positions `j` other than `i`, of
`ComputeForce (body_j, body_i)`, every force being evaluated on the bodies as
they were before the step: each unordered pair contributes exactly once to each
of its two bodies, with the right sign. -/
theorem StepSimulation_velocity (self : GravityPhysicsSystem α) (fns : MathFns α)
    (objs : List (VEGameObject α)) (dt : α)
    (_hmass : ∀ obj ∈ objs, obj.m_RigidBody2D.Mass ≠ 0) (i : Fin objs.length) :
    ((self.StepSimulation fns objs dt)[i.val]?).map (fun obj => obj.m_RigidBody2D.Velocity) =
      some ((objs.get i).m_RigidBody2D.Velocity +
        (dt / (objs.get i).m_RigidBody2D.Mass) •
          ∑ j ∈ Finset.univ.erase i, self.ComputeForce fns (objs.get j) (objs.get i)) := by
  rw [StepSimulation_getElem? self fns objs (objs.get i) dt i i.isLt, Option.map_some',
    ← netKick_eq_smul_sum self fns objs dt i]
  rfl

/-- Three bodies of masses 1, 1 and 3 over the reals, `dt = 1 / 100`, body 0. -/
theorem StepSimulation_velocity_witness :
    (∀ obj ∈ [sampleObject (1 : ℝ) 0 0 0 1, sampleObject (-1) 0 0 0 1, sampleObject 0 2 0 0 3],
      obj.m_RigidBody2D.Mass ≠ 0) ∧
    (((GravityPhysicsSystem.mk (1 : ℝ)).StepSimulation
        (MathFns.mk Real.sqrt Real.log (fun y x => (Complex.mk x y).arg))
        [sampleObject (1 : ℝ) 0 0 0 1, sampleObject (-1) 0 0 0 1, sampleObject 0 2 0 0 3]
        (1 / 100))[0]?).map (fun obj => obj.m_RigidBody2D.Velocity) =
      some ((sampleObject (1 : ℝ) 0 0 0 1).m_RigidBody2D.Velocity +
        ((1 / 100) / (sampleObject (1 : ℝ) 0 0 0 1).m_RigidBody2D.Mass) •
          ∑ j ∈ (Finset.univ.erase ⟨0, by decide⟩ : Finset (Fin
              [sampleObject (1 : ℝ) 0 0 0 1, sampleObject (-1) 0 0 0 1,
                sampleObject 0 2 0 0 3].length)),
            (GravityPhysicsSystem.mk (1 : ℝ)).ComputeForce
              (MathFns.mk Real.sqrt Real.log (fun y x => (Complex.mk x y).arg))
              ([sampleObject (1 : ℝ) 0 0 0 1, sampleObject (-1) 0 0 0 1,
                sampleObject 0 2 0 0 3].get j)
              (sampleObject (1 : ℝ) 0 0 0 1)) :=
  ⟨by
      intro obj hobj
      simp only [List.mem_cons, List.mem_singleton, List.not_mem_nil, or_false] at hobj
      rcases hobj with h | h | h <;> rw [h] <;> simp [sampleObject],
    StepSimulation_velocity (GravityPhysicsSystem.mk (1 : ℝ))
      (MathFns.mk Real.sqrt Real.log (fun y x => (Complex.mk x y).arg))
      [sampleObject (1 : ℝ) 0 0 0 1, sampleObject (-1) 0 0 0 1, sampleObject 0 2 0 0 3]
      (1 / 100)
      (by
        intro obj hobj
        simp only [List.mem_cons, List.mem_singleton, List.not_mem_nil, or_false] at hobj
        rcases hobj with h | h | h <;> rw [h] <;> simp [sampleObject])
      ⟨0, by decide⟩⟩

/-- C6: for every body list and `dt`, the position of the body at position `i`
after `StepSimulation` is its old position plus `dt` times its velocity after
the step, which is the velocity the pairwise updates of this step have produced
(semi-implicit Euler). -/
theorem StepSimulation_position (self : GravityPhysicsSystem α) (fns : MathFns α)
    (objs : List (VEGameObject α)) (dt : α) (i : Fin objs.length) :
    ∃ obj : VEGameObject α,
      (self.StepSimulation fns objs dt)[i.val]? = some obj ∧
      ((self.applyForces fns objs dt)[i.val]?).map (fun o => o.m_RigidBody2D.Velocity)
        = some obj.m_RigidBody2D.Velocity ∧
      obj.m_Transform2D.Translation =
        (objs.get i).m_Transform2D.Translation + dt • obj.m_RigidBody2D.Velocity := by
  refine ⟨_, StepSimulation_getElem? self fns objs (objs.get i) dt i i.isLt, ?_, rfl⟩
  rw [applyForces_getElem? self fns objs (objs.get i) dt i i.isLt]
  rfl

/-! ## Conservation of momentum -/

theorem sum_map_eq_sum_range_getD {β M : Type} [AddCommMonoid M] (f : β → M) (d : β)
    (l : List β) :
    (l.map f).sum = ∑ i ∈ Finset.range l.length, f (l.getD i d) := by
  induction l with
  | nil => simp
  | cons b l ih =>
    rw [List.map_cons, List.sum_cons, List.length_cons, Finset.sum_range_succ', ih, add_comm]
    simp

theorem StepSimulation_length (self : GravityPhysicsSystem α) (fns : MathFns α)
    (objs : List (VEGameObject α)) (dt : α) :
    (self.StepSimulation fns objs dt).length = objs.length := by
  unfold GravityPhysicsSystem.StepSimulation
  rw [List.length_map, applyForces_eq_withVelocities self fns objs (sampleObject 0 0 0 0 0) dt]
  unfold withVelocities
  exact List.length_mapIdx

theorem StepSimulation_map_Mass (self : GravityPhysicsSystem α) (fns : MathFns α)
    (objs : List (VEGameObject α)) (dt : α) :
    (self.StepSimulation fns objs dt).map (fun obj => obj.m_RigidBody2D.Mass) =
      objs.map (fun obj => obj.m_RigidBody2D.Mass) := by
  apply List.ext_getElem?
  intro i
  rw [List.getElem?_map, List.getElem?_map]
  by_cases hi : i < objs.length
  · rw [StepSimulation_getElem? self fns objs (sampleObject 0 0 0 0 0) dt i hi,
      List.getElem?_eq_getElem hi]
    rfl
  · rw [List.getElem?_eq_none (not_lt.mp hi), List.getElem?_eq_none]
    rw [StepSimulation_length]
    exact not_lt.mp hi

theorem sum_mass_smul_netKick (self : GravityPhysicsSystem α) (fns : MathFns α)
    (objs : List (VEGameObject α)) (d : VEGameObject α) (dt : α)
    (hmass : ∀ i, i < objs.length → (objs.getD i d).m_RigidBody2D.Mass ≠ 0) :
    ∑ i ∈ Finset.range objs.length,
      (objs.getD i d).m_RigidBody2D.Mass • netKick self fns objs d dt i = 0 := by
  have h1 : ∀ i ∈ Finset.range objs.length,
      (objs.getD i d).m_RigidBody2D.Mass • netKick self fns objs d dt i =
        ∑ j ∈ Finset.range objs.length,
          if j = i then 0 else dt • self.ComputeForce fns (objs.getD j d) (objs.getD i d) := by
    intro i hi
    have hi' := Finset.mem_range.mp hi
    rw [netKick_eq_sum self fns objs d dt i hi', Finset.smul_sum]
    apply Finset.sum_congr rfl
    intro j _
    by_cases hji : j = i
    · simp [hji]
    · rw [if_neg hji, if_neg hji, smul_smul, mul_div_cancel₀ _ (hmass i hi')]
  rw [Finset.sum_congr rfl h1]
  set S := ∑ i ∈ Finset.range objs.length, ∑ j ∈ Finset.range objs.length,
    (if j = i then (0 : Vec2 α)
      else dt • self.ComputeForce fns (objs.getD j d) (objs.getD i d)) with hS
  have hneg : S = -S := by
    conv_lhs => rw [hS, Finset.sum_comm]
    rw [hS, ← Finset.sum_neg_distrib]
    apply Finset.sum_congr rfl
    intro i _
    rw [← Finset.sum_neg_distrib]
    apply Finset.sum_congr rfl
    intro j _
    by_cases hji : j = i
    · simp [hji]
    · have hij : ¬ i = j := fun h => hji h.symm
      rw [if_neg hji, if_neg hij, ComputeForce_neg_swap self fns (objs.getD i d) (objs.getD j d),
        smul_neg]
  have hx : S.x = -S.x := by
    conv_lhs => rw [hneg]
    rfl
  have hy : S.y = -S.y := by
    conv_lhs => rw [hneg]
    rfl
  ext
  · simp only [Vec2.zero_x]; linarith
  · simp only [Vec2.zero_y]; linarith

theorem StepSimulation_totalMomentum (self : GravityPhysicsSystem α) (fns : MathFns α)
    (objs : List (VEGameObject α)) (dt : α)
    (hmass : ∀ obj ∈ objs, obj.m_RigidBody2D.Mass ≠ 0) :
    totalMomentum (self.StepSimulation fns objs dt) = totalMomentum objs := by
  have hm : ∀ i, i < objs.length →
      (objs.getD i (sampleObject 0 0 0 0 0)).m_RigidBody2D.Mass ≠ 0 := by
    intro i hi
    rw [List.getD_eq_getElem _ _ hi]
    exact hmass _ (List.getElem_mem hi)
  have hpoint : ∀ i ∈ Finset.range objs.length,
      ((self.StepSimulation fns objs dt).getD i (sampleObject 0 0 0 0 0)).m_RigidBody2D.Mass •
          ((self.StepSimulation fns objs dt).getD i (sampleObject 0 0 0 0 0)).m_RigidBody2D.Velocity =
        (objs.getD i (sampleObject 0 0 0 0 0)).m_RigidBody2D.Mass •
            (objs.getD i (sampleObject 0 0 0 0 0)).m_RigidBody2D.Velocity +
          (objs.getD i (sampleObject 0 0 0 0 0)).m_RigidBody2D.Mass •
            netKick self fns objs (sampleObject 0 0 0 0 0) dt i := by
    intro i hi
    have hi' := Finset.mem_range.mp hi
    rw [List.getD_eq_getElem?_getD,
      StepSimulation_getElem? self fns objs (sampleObject 0 0 0 0 0) dt i hi',
      List.getD_eq_getElem _ _ hi', ← smul_add]
    rfl
  unfold totalMomentum
  rw [sum_map_eq_sum_range_getD _ (sampleObject 0 0 0 0 0),
    sum_map_eq_sum_range_getD _ (sampleObject 0 0 0 0 0) objs, StepSimulation_length,
    Finset.sum_congr rfl hpoint, Finset.sum_add_distrib,
    sum_mass_smul_netKick self fns objs (sampleObject 0 0 0 0 0) dt hm, add_zero]

theorem mass_ne_zero_of_map_eq (objs objs' : List (VEGameObject α))
    (h : objs'.map (fun obj => obj.m_RigidBody2D.Mass) = objs.map (fun obj => obj.m_RigidBody2D.Mass))
    (hmass : ∀ obj ∈ objs, obj.m_RigidBody2D.Mass ≠ 0) :
    ∀ obj ∈ objs', obj.m_RigidBody2D.Mass ≠ 0 := by
  intro obj hobj
  have h1 : obj.m_RigidBody2D.Mass ∈ objs'.map (fun obj => obj.m_RigidBody2D.Mass) :=
    List.mem_map_of_mem _ hobj
  rw [h] at h1
  obtain ⟨o, ho, hoe⟩ := List.mem_map.mp h1
  rw [← hoe]
  exact hmass o ho

theorem foldl_StepSimulation_momentum (self : GravityPhysicsSystem α) (fns : MathFns α)
    {β : Type} (l : List β) (stepDelta : α) (objs : List (VEGameObject α))
    (hmass : ∀ obj ∈ objs, obj.m_RigidBody2D.Mass ≠ 0) :
    (l.foldl (fun st _ => self.StepSimulation fns st stepDelta) objs).map
        (fun obj => obj.m_RigidBody2D.Mass) = objs.map (fun obj => obj.m_RigidBody2D.Mass) ∧
      totalMomentum (l.foldl (fun st _ => self.StepSimulation fns st stepDelta) objs) =
        totalMomentum objs := by
  induction l generalizing objs with
  | nil => exact ⟨rfl, rfl⟩
  | cons b l ih =>
    have hstep := StepSimulation_map_Mass self fns objs stepDelta
    obtain ⟨h1, h2⟩ := ih (self.StepSimulation fns objs stepDelta)
      (mass_ne_zero_of_map_eq objs _ hstep hmass)
    rw [List.foldl_cons]
    exact ⟨h1.trans hstep, h2.trans (StepSimulation_totalMomentum self fns objs stepDelta hmass)⟩

theorem Update_momentum (self : GravityPhysicsSystem α) (fns : MathFns α)
    (objs : List (VEGameObject α)) (dt : α) (substeps : Nat)
    (hmass : ∀ obj ∈ objs, obj.m_RigidBody2D.Mass ≠ 0) :
    (self.Update fns objs dt substeps).map (fun obj => obj.m_RigidBody2D.Mass) =
        objs.map (fun obj => obj.m_RigidBody2D.Mass) ∧
      totalMomentum (self.Update fns objs dt substeps) = totalMomentum objs :=
  foldl_StepSimulation_momentum self fns (List.range substeps) (dt / (substeps : α)) objs hmass

theorem foldl_Update_momentum (self : GravityPhysicsSystem α) (fns : MathFns α)
    (calls : List (α × Nat)) (objs : List (VEGameObject α))
    (hmass : ∀ obj ∈ objs, obj.m_RigidBody2D.Mass ≠ 0) :
    (calls.foldl (fun st call => self.Update fns st call.1 call.2) objs).map
        (fun obj => obj.m_RigidBody2D.Mass) = objs.map (fun obj => obj.m_RigidBody2D.Mass) ∧
      totalMomentum (calls.foldl (fun st call => self.Update fns st call.1 call.2) objs) =
        totalMomentum objs := by
  induction calls generalizing objs with
  | nil => exact ⟨rfl, rfl⟩
  | cons c calls ih =>
    obtain ⟨hm, hp⟩ := Update_momentum self fns objs c.1 c.2 hmass
    obtain ⟨h1, h2⟩ := ih (self.Update fns objs c.1 c.2) (mass_ne_zero_of_map_eq objs _ hm hmass)
    rw [List.foldl_cons]
    exact ⟨h1.trans hm, h2.trans hp⟩

theorem two_body_of_map_Mass (body1 body2 : VEGameObject α) (objs : List (VEGameObject α))
    (hm : objs.map (fun obj => obj.m_RigidBody2D.Mass) =
      [body1, body2].map (fun obj => obj.m_RigidBody2D.Mass))
    (hp : totalMomentum objs = totalMomentum [body1, body2]) :
    ∃ c1 c2 : VEGameObject α, objs = [c1, c2] ∧
      c1.m_RigidBody2D.Mass • c1.m_RigidBody2D.Velocity
          + c2.m_RigidBody2D.Mass • c2.m_RigidBody2D.Velocity =
        body1.m_RigidBody2D.Mass • body1.m_RigidBody2D.Velocity
          + body2.m_RigidBody2D.Mass • body2.m_RigidBody2D.Velocity := by
  have hlen : objs.length = 2 := by
    have h := congrArg List.length hm
    simpa using h
  obtain ⟨c1, c2, rfl⟩ := List.length_eq_two.mp hlen
  refine ⟨c1, c2, rfl, ?_⟩
  simpa [totalMomentum] using hp

/-- C7: for every two-body list with nonzero masses, every gravitational
constant, every `dt` and every number of sub-steps, `Update` returns two bodies
whose total momentum `mass_1 * velocity_1 + mass_2 * velocity_2` is the total
momentum before the call; and the same holds after any sequence of `Update`
calls, each with its own `dt` and number of sub-steps. -/
theorem Update_two_body_momentum (self : GravityPhysicsSystem α) (fns : MathFns α)
    (body1 body2 : VEGameObject α)
    (h1 : body1.m_RigidBody2D.Mass ≠ 0) (h2 : body2.m_RigidBody2D.Mass ≠ 0) :
    (∀ (dt : α) (substeps : Nat), ∃ c1 c2 : VEGameObject α,
      self.Update fns [body1, body2] dt substeps = [c1, c2] ∧
      c1.m_RigidBody2D.Mass • c1.m_RigidBody2D.Velocity
          + c2.m_RigidBody2D.Mass • c2.m_RigidBody2D.Velocity =
        body1.m_RigidBody2D.Mass • body1.m_RigidBody2D.Velocity
          + body2.m_RigidBody2D.Mass • body2.m_RigidBody2D.Velocity) ∧
    (∀ calls : List (α × Nat), ∃ c1 c2 : VEGameObject α,
      calls.foldl (fun objs call => self.Update fns objs call.1 call.2) [body1, body2] = [c1, c2] ∧
      c1.m_RigidBody2D.Mass • c1.m_RigidBody2D.Velocity
          + c2.m_RigidBody2D.Mass • c2.m_RigidBody2D.Velocity =
        body1.m_RigidBody2D.Mass • body1.m_RigidBody2D.Velocity
          + body2.m_RigidBody2D.Mass • body2.m_RigidBody2D.Velocity) := by
  have hmass : ∀ obj ∈ [body1, body2], obj.m_RigidBody2D.Mass ≠ 0 := by
    intro obj hobj
    rcases List.mem_pair.mp hobj with h | h
    · rw [h]; exact h1
    · rw [h]; exact h2
  constructor
  · intro dt substeps
    obtain ⟨hm, hp⟩ := Update_momentum self fns [body1, body2] dt substeps hmass
    exact two_body_of_map_Mass body1 body2 _ hm hp
  · intro calls
    obtain ⟨hm, hp⟩ := foldl_Update_momentum self fns calls [body1, body2] hmass
    exact two_body_of_map_Mass body1 body2 _ hm hp

/-- Two bodies of masses 2 and 5 over the reals, after one `Update` with
`dt = 1 / 60` and 5 sub-steps. -/
theorem Update_two_body_momentum_witness :
    (sampleObject (1 : ℝ) 0 0 1 2).m_RigidBody2D.Mass ≠ 0 ∧
    (sampleObject (-1 : ℝ) 0 3 0 5).m_RigidBody2D.Mass ≠ 0 ∧
    ∃ c1 c2 : VEGameObject ℝ,
      (GravityPhysicsSystem.mk (1 : ℝ)).Update
          (MathFns.mk Real.sqrt Real.log (fun y x => (Complex.mk x y).arg))
          [sampleObject 1 0 0 1 2, sampleObject (-1) 0 3 0 5] (1 / 60) 5 = [c1, c2] ∧
      c1.m_RigidBody2D.Mass • c1.m_RigidBody2D.Velocity
          + c2.m_RigidBody2D.Mass • c2.m_RigidBody2D.Velocity =
        (sampleObject (1 : ℝ) 0 0 1 2).m_RigidBody2D.Mass •
            (sampleObject (1 : ℝ) 0 0 1 2).m_RigidBody2D.Velocity
          + (sampleObject (-1 : ℝ) 0 3 0 5).m_RigidBody2D.Mass •
            (sampleObject (-1 : ℝ) 0 3 0 5).m_RigidBody2D.Velocity :=
  ⟨by simp [sampleObject], by simp [sampleObject],
    (Update_two_body_momentum (GravityPhysicsSystem.mk (1 : ℝ))
      (MathFns.mk Real.sqrt Real.log (fun y x => (Complex.mk x y).arg))
      (sampleObject 1 0 0 1 2) (sampleObject (-1) 0 3 0 5)
      (by simp [sampleObject]) (by simp [sampleObject])).1 (1 / 60) 5⟩

end step

/-! ## The vector field -/

section field

variable {α : Type} [LinearOrderedField α]

theorem direction_eq_sum (fns : MathFns α) (physicsSystem : GravityPhysicsSystem α)
    (physicsObjs : List (VEGameObject α)) (vf : VEGameObject α) :
    Vec2FieldSystem.direction fns physicsSystem physicsObjs vf =
      (physicsObjs.map (fun obj => physicsSystem.ComputeForce fns obj vf)).sum := by
  unfold Vec2FieldSystem.direction
  rw [List.sum_eq_foldl, List.foldl_map]

theorem Vec2FieldSystem_Update_getElem? (fns : MathFns α) (physicsSystem : GravityPhysicsSystem α)
    (physicsObjs vectorField : List (VEGameObject α)) (i : Nat) (hi : i < vectorField.length) :
    (Vec2FieldSystem.Update fns physicsSystem physicsObjs vectorField).2[i]? =
      some { vectorField[i] with
        m_Transform2D.Scale.x := 0.005 + 0.045 * clamp (fns.log (length fns
          (Vec2FieldSystem.direction fns physicsSystem physicsObjs vectorField[i]) + 1) / 3) 0 1
        m_Transform2D.Rotation :=
          fns.atan2 (Vec2FieldSystem.direction fns physicsSystem physicsObjs vectorField[i]).y
            (Vec2FieldSystem.direction fns physicsSystem physicsObjs vectorField[i]).x } := by
  unfold Vec2FieldSystem.Update
  simp only [List.getElem?_map, List.getElem?_eq_getElem hi, Option.map_some']

/-- C10: for every simulator, body list and sample list, applying
`Vec2FieldSystem::Update` a second time to the bodies and samples a first
application has produced yields exactly the same bodies and samples (hence the
same scale and rotation on every sample). -/
theorem Vec2FieldSystem_Update_idempotent (fns : MathFns α)
    (physicsSystem : GravityPhysicsSystem α) (physicsObjs vectorField : List (VEGameObject α)) :
    Vec2FieldSystem.Update fns physicsSystem
        (Vec2FieldSystem.Update fns physicsSystem physicsObjs vectorField).1
        (Vec2FieldSystem.Update fns physicsSystem physicsObjs vectorField).2 =
      Vec2FieldSystem.Update fns physicsSystem physicsObjs vectorField := by
  unfold Vec2FieldSystem.Update
  simp only [List.map_map]
  rfl

end field

/-- C8: over the reals, with `glm::sqrt` the real square root and `glm::log`
the natural logarithm, `Vec2FieldSystem::Update` sets the `Scale.x` of the
sample at position `i` to `0.005 + 0.045 * clamp (ln (|direction| + 1) / 3, 0, 1)`,
where `direction` is the sum over the bodies `b`, in list order, of
`ComputeForce (b, sample)`, and `|direction|` the square root of
`dot (direction, direction)`. -/
theorem Vec2FieldSystem_Update_scale (fns : MathFns ℝ) (hsqrt : fns.sqrt = Real.sqrt)
    (hlog : fns.log = Real.log) (physicsSystem : GravityPhysicsSystem ℝ)
    (physicsObjs vectorField : List (VEGameObject ℝ)) (i : Fin vectorField.length) :
    ∃ vf : VEGameObject ℝ,
      (Vec2FieldSystem.Update fns physicsSystem physicsObjs vectorField).2[i.val]? = some vf ∧
      vf.m_Transform2D.Scale.x =
        0.005 + 0.045 * clamp (Real.log (Real.sqrt
          (dot (physicsObjs.map
              (fun b => physicsSystem.ComputeForce fns b (vectorField.get i))).sum
            (physicsObjs.map
              (fun b => physicsSystem.ComputeForce fns b (vectorField.get i))).sum) + 1) / 3) 0 1
      := by
  refine ⟨_, Vec2FieldSystem_Update_getElem? fns physicsSystem physicsObjs vectorField i i.isLt, ?_⟩
  rw [← direction_eq_sum, ← hsqrt, ← hlog]
  rfl

/-- One body of mass 1 at `(2, 0)` and one sample of mass 1 at the origin, with
`G = 1`. -/
theorem Vec2FieldSystem_Update_scale_witness :
    (MathFns.mk Real.sqrt Real.log (fun y x => (Complex.mk x y).arg)).sqrt = Real.sqrt ∧
    (MathFns.mk Real.sqrt Real.log (fun y x => (Complex.mk x y).arg)).log = Real.log ∧
    ∃ vf : VEGameObject ℝ,
      (Vec2FieldSystem.Update (MathFns.mk Real.sqrt Real.log (fun y x => (Complex.mk x y).arg))
        (GravityPhysicsSystem.mk 1) [sampleObject 2 0 0 0 1] [sampleObject 0 0 0 0 1]).2[0]?
          = some vf ∧
      vf.m_Transform2D.Scale.x =
        0.005 + 0.045 * clamp (Real.log (Real.sqrt
          (dot ([sampleObject (2 : ℝ) 0 0 0 1].map
              (fun b => (GravityPhysicsSystem.mk (1 : ℝ)).ComputeForce
                (MathFns.mk Real.sqrt Real.log (fun y x => (Complex.mk x y).arg)) b
                (sampleObject 0 0 0 0 1))).sum
            ([sampleObject (2 : ℝ) 0 0 0 1].map
              (fun b => (GravityPhysicsSystem.mk (1 : ℝ)).ComputeForce
                (MathFns.mk Real.sqrt Real.log (fun y x => (Complex.mk x y).arg)) b
                (sampleObject 0 0 0 0 1))).sum) + 1) / 3) 0 1 :=
  ⟨rfl, rfl,
    Vec2FieldSystem_Update_scale (MathFns.mk Real.sqrt Real.log (fun y x => (Complex.mk x y).arg))
      rfl rfl (GravityPhysicsSystem.mk 1) [sampleObject 2 0 0 0 1] [sampleObject 0 0 0 0 1]
      ⟨0, by decide⟩⟩

/-- C9: over the reals, with `atan2 (y, x)` the standard two-argument
arctangent (the argument of the complex number `x + i y`),
`Vec2FieldSystem::Update` sets the rotation of the sample at position `i` to
`atan2 (direction.y, direction.x)` of the net field vector `direction` at the
sample; the value is above `-pi` and at most `pi`, and it is 0 when `direction`
is the zero vector. -/
theorem Vec2FieldSystem_Update_rotation (fns : MathFns ℝ)
    (hatan2 : fns.atan2 = fun y x => (Complex.mk x y).arg)
    (physicsSystem : GravityPhysicsSystem ℝ)
    (physicsObjs vectorField : List (VEGameObject ℝ)) (i : Fin vectorField.length) :
    ∃ vf : VEGameObject ℝ,
      (Vec2FieldSystem.Update fns physicsSystem physicsObjs vectorField).2[i.val]? = some vf ∧
      vf.m_Transform2D.Rotation =
        (Complex.mk
          (physicsObjs.map (fun b => physicsSystem.ComputeForce fns b (vectorField.get i))).sum.x
          (physicsObjs.map (fun b => physicsSystem.ComputeForce fns b (vectorField.get i))).sum.y).arg ∧
      -Real.pi < vf.m_Transform2D.Rotation ∧ vf.m_Transform2D.Rotation ≤ Real.pi ∧
      ((physicsObjs.map (fun b => physicsSystem.ComputeForce fns b (vectorField.get i))).sum = 0 →
        vf.m_Transform2D.Rotation = 0) := by
  have hrot : ({ vectorField[i.val] with
        m_Transform2D.Scale.x := 0.005 + 0.045 * clamp (fns.log (length fns
          (Vec2FieldSystem.direction fns physicsSystem physicsObjs vectorField[i.val]) + 1) / 3) 0 1
        m_Transform2D.Rotation :=
          fns.atan2 (Vec2FieldSystem.direction fns physicsSystem physicsObjs vectorField[i.val]).y
            (Vec2FieldSystem.direction fns physicsSystem physicsObjs vectorField[i.val]).x }
        : VEGameObject ℝ).m_Transform2D.Rotation =
      (Complex.mk
        (physicsObjs.map (fun b => physicsSystem.ComputeForce fns b (vectorField.get i))).sum.x
        (physicsObjs.map (fun b => physicsSystem.ComputeForce fns b (vectorField.get i))).sum.y).arg := by
    rw [← direction_eq_sum, hatan2]
    rfl
  refine ⟨_, Vec2FieldSystem_Update_getElem? fns physicsSystem physicsObjs vectorField i i.isLt,
    hrot, ?_, ?_, ?_⟩
  · rw [hrot]; exact (Complex.arg_mem_Ioc _).1
  · rw [hrot]; exact (Complex.arg_mem_Ioc _).2
  · intro hzero
    rw [hrot, hzero]
    exact Complex.arg_zero

/-- One body of mass 1 at `(2, 0)` and one sample of mass 1 at the origin, with
`G = 1`. -/
theorem Vec2FieldSystem_Update_rotation_witness :
    (MathFns.mk Real.sqrt Real.log (fun y x => (Complex.mk x y).arg)).atan2
      = (fun y x => (Complex.mk x y).arg) ∧
    ∃ vf : VEGameObject ℝ,
      (Vec2FieldSystem.Update (MathFns.mk Real.sqrt Real.log (fun y x => (Complex.mk x y).arg))
        (GravityPhysicsSystem.mk 1) [sampleObject 2 0 0 0 1] [sampleObject 0 0 0 0 1]).2[0]?
          = some vf ∧
      vf.m_Transform2D.Rotation =
        (Complex.mk
          ([sampleObject (2 : ℝ) 0 0 0 1].map
            (fun b => (GravityPhysicsSystem.mk (1 : ℝ)).ComputeForce
              (MathFns.mk Real.sqrt Real.log (fun y x => (Complex.mk x y).arg)) b
              (sampleObject 0 0 0 0 1))).sum.x
          ([sampleObject (2 : ℝ) 0 0 0 1].map
            (fun b => (GravityPhysicsSystem.mk (1 : ℝ)).ComputeForce
              (MathFns.mk Real.sqrt Real.log (fun y x => (Complex.mk x y).arg)) b
              (sampleObject 0 0 0 0 1))).sum.y).arg ∧
      -Real.pi < vf.m_Transform2D.Rotation ∧ vf.m_Transform2D.Rotation ≤ Real.pi ∧
      (([sampleObject (2 : ℝ) 0 0 0 1].map
          (fun b => (GravityPhysicsSystem.mk (1 : ℝ)).ComputeForce
            (MathFns.mk Real.sqrt Real.log (fun y x => (Complex.mk x y).arg)) b
            (sampleObject 0 0 0 0 1))).sum = 0 →
        vf.m_Transform2D.Rotation = 0) :=
  ⟨rfl,
    Vec2FieldSystem_Update_rotation
      (MathFns.mk Real.sqrt Real.log (fun y x => (Complex.mk x y).arg)) rfl
      (GravityPhysicsSystem.mk 1) [sampleObject 2 0 0 0 1] [sampleObject 0 0 0 0 1]
      ⟨0, by decide⟩⟩

/-! ## Frame conditions -/

section frameconditions

variable {α : Type} [LinearOrderedField α]

theorem StepSimulation_map_nonKinematic (self : GravityPhysicsSystem α) (fns : MathFns α)
    (objs : List (VEGameObject α)) (dt : α) :
    (self.StepSimulation fns objs dt).map nonKinematic = objs.map nonKinematic := by
  apply List.ext_getElem?
  intro i
  rw [List.getElem?_map, List.getElem?_map]
  by_cases hi : i < objs.length
  · rw [StepSimulation_getElem? self fns objs (sampleObject 0 0 0 0 0) dt i hi,
      List.getElem?_eq_getElem hi]
    rfl
  · rw [List.getElem?_eq_none (not_lt.mp hi), List.getElem?_eq_none]
    rw [StepSimulation_length]
    exact not_lt.mp hi

theorem foldl_StepSimulation_map_nonKinematic (self : GravityPhysicsSystem α) (fns : MathFns α)
    {β : Type} (l : List β) (stepDelta : α) (objs : List (VEGameObject α)) :
    (l.foldl (fun st _ => self.StepSimulation fns st stepDelta) objs).map nonKinematic =
      objs.map nonKinematic := by
  induction l generalizing objs with
  | nil => rfl
  | cons b l ih =>
    rw [List.foldl_cons, ih, StepSimulation_map_nonKinematic]

theorem Update_map_nonKinematic (self : GravityPhysicsSystem α) (fns : MathFns α)
    (objs : List (VEGameObject α)) (dt : α) (substeps : Nat) :
    (self.Update fns objs dt substeps).map nonKinematic = objs.map nonKinematic :=
  foldl_StepSimulation_map_nonKinematic self fns (List.range substeps) (dt / (substeps : α)) objs

/-- C11: for every body list, `dt` and number of sub-steps, `Update` returns a
list of the same length in which the body at each position has the mass, visual
scale, visual rotation, colour and model of the body that was at that position
before the call: only positions and velocities change. -/
theorem Update_frame (self : GravityPhysicsSystem α) (fns : MathFns α)
    (objs : List (VEGameObject α)) (dt : α) (substeps : Nat) :
    (self.Update fns objs dt substeps).length = objs.length ∧
    ∀ i : Fin objs.length, ∃ obj : VEGameObject α,
      (self.Update fns objs dt substeps)[i.val]? = some obj ∧
      obj.m_RigidBody2D.Mass = (objs.get i).m_RigidBody2D.Mass ∧
      obj.m_Transform2D.Scale = (objs.get i).m_Transform2D.Scale ∧
      obj.m_Transform2D.Rotation = (objs.get i).m_Transform2D.Rotation ∧
      obj.m_Color = (objs.get i).m_Color ∧
      obj.m_Model = (objs.get i).m_Model := by
  have hmap := Update_map_nonKinematic self fns objs dt substeps
  have hlen : (self.Update fns objs dt substeps).length = objs.length := by
    have h := congrArg List.length hmap
    simpa using h
  refine ⟨hlen, ?_⟩
  intro i
  have hi : i.val < (self.Update fns objs dt substeps).length := by
    rw [hlen]; exact i.isLt
  refine ⟨(self.Update fns objs dt substeps)[i.val], List.getElem?_eq_getElem hi, ?_⟩
  have h := congrArg (fun l => l[i.val]?) hmap
  simp only [List.getElem?_map, List.getElem?_eq_getElem hi, List.getElem?_eq_getElem i.isLt,
    Option.map_some', Option.some.injEq, nonKinematic, Prod.mk.injEq] at h
  obtain ⟨h1, h2, h3, h4, h5⟩ := h
  exact ⟨h5, h3, h4, h2, h1⟩

theorem Vec2FieldSystem_Update_length (fns : MathFns α) (physicsSystem : GravityPhysicsSystem α)
    (physicsObjs vectorField : List (VEGameObject α)) :
    (Vec2FieldSystem.Update fns physicsSystem physicsObjs vectorField).2.length
      = vectorField.length := by
  unfold Vec2FieldSystem.Update
  exact List.length_map _ _

/-- C12: for every input, `Vec2FieldSystem::Update` returns the body list
unchanged and a sample list of the same length in which the sample at each
position has the position, velocity, mass, `Scale.y`, colour and model of the
sample that was at that position before the call: only `Scale.x` and the
rotation may differ. -/
theorem Vec2FieldSystem_Update_frame (fns : MathFns α) (physicsSystem : GravityPhysicsSystem α)
    (physicsObjs vectorField : List (VEGameObject α)) :
    (Vec2FieldSystem.Update fns physicsSystem physicsObjs vectorField).1 = physicsObjs ∧
    (Vec2FieldSystem.Update fns physicsSystem physicsObjs vectorField).2.length
      = vectorField.length ∧
    ∀ i : Fin vectorField.length, ∃ vf : VEGameObject α,
      (Vec2FieldSystem.Update fns physicsSystem physicsObjs vectorField).2[i.val]? = some vf ∧
      vf.m_Transform2D.Translation = (vectorField.get i).m_Transform2D.Translation ∧
      vf.m_RigidBody2D.Velocity = (vectorField.get i).m_RigidBody2D.Velocity ∧
      vf.m_RigidBody2D.Mass = (vectorField.get i).m_RigidBody2D.Mass ∧
      vf.m_Transform2D.Scale.y = (vectorField.get i).m_Transform2D.Scale.y ∧
      vf.m_Color = (vectorField.get i).m_Color ∧
      vf.m_Model = (vectorField.get i).m_Model := by
  refine ⟨rfl, Vec2FieldSystem_Update_length fns physicsSystem physicsObjs vectorField, ?_⟩
  intro i
  exact ⟨_, Vec2FieldSystem_Update_getElem? fns physicsSystem physicsObjs vectorField i i.isLt,
    rfl, rfl, rfl, rfl, rfl, rfl⟩

end frameconditions

/-! ## Scenarios -/

theorem StepSimulation_pair {α : Type} [LinearOrderedField α] (self : GravityPhysicsSystem α) (fns : MathFns α)
    (b1 b2 : VEGameObject α) (dt : α) :
    self.StepSimulation fns [b1, b2] dt =
      [{ b1 with
          m_RigidBody2D.Velocity := b1.m_RigidBody2D.Velocity +
            (dt • -self.ComputeForce fns b1 b2) / b1.m_RigidBody2D.Mass
          m_Transform2D.Translation := b1.m_Transform2D.Translation +
            dt • (b1.m_RigidBody2D.Velocity +
              (dt • -self.ComputeForce fns b1 b2) / b1.m_RigidBody2D.Mass) },
       { b2 with
          m_RigidBody2D.Velocity := b2.m_RigidBody2D.Velocity +
            (dt • self.ComputeForce fns b1 b2) / b2.m_RigidBody2D.Mass
          m_Transform2D.Translation := b2.m_Transform2D.Translation +
            dt • (b2.m_RigidBody2D.Velocity +
              (dt • self.ComputeForce fns b1 b2) / b2.m_RigidBody2D.Mass) }] := by
  rfl

theorem ComputeForce_symmetric_pair (fns : MathFns ℝ) (hsqrt : fns.sqrt = Real.sqrt)
    (x v w : ℝ) (hx : 1 / 2 ≤ x) :
    (GravityPhysicsSystem.mk (1 : ℝ)).ComputeForce fns
      (sampleObject x 0 v 0 1) (sampleObject (-x) 0 w 0 1) = ⟨1 / (4 * x ^ 2), 0⟩ := by
  have hd : dot ((sampleObject x 0 v 0 1).m_Transform2D.Translation
        - (sampleObject (-x) 0 w 0 1).m_Transform2D.Translation)
      ((sampleObject x 0 v 0 1).m_Transform2D.Translation
        - (sampleObject (-x) 0 w 0 1).m_Transform2D.Translation) = (2 * x) ^ 2 := by
    simp only [sampleObject, dot, Vec2.mk_sub_mk]
    ring
  have h2x : (0 : ℝ) ≤ 2 * x := by linarith
  have hge : (1 : ℝ) ≤ (2 * x) ^ 2 := by nlinarith
  have hnot : ¬ |(2 * x) ^ 2| < (1e-10 : ℝ) := by
    rw [abs_of_nonneg (by positivity)]
    norm_num
    linarith
  have hx0 : x ≠ 0 := by linarith
  unfold GravityPhysicsSystem.ComputeForce
  simp only [hd, if_neg hnot, hsqrt, Real.sqrt_sq h2x]
  simp only [sampleObject, Vec2.mk_sub_mk, Vec2.smul_mk, Vec2.mk_div]
  ext
  · simp only []
    field_simp
    ring
  · simp

theorem StepSimulation_symmetric_pair (fns : MathFns ℝ) (hsqrt : fns.sqrt = Real.sqrt)
    (x v h : ℝ) (hx : 1 / 2 ≤ x) :
    (GravityPhysicsSystem.mk (1 : ℝ)).StepSimulation fns
        [sampleObject x 0 v 0 1, sampleObject (-x) 0 (-v) 0 1] h =
      [sampleObject (x + h * (v - h / (4 * x ^ 2))) 0 (v - h / (4 * x ^ 2)) 0 1,
        sampleObject (-(x + h * (v - h / (4 * x ^ 2)))) 0 (-(v - h / (4 * x ^ 2))) 0 1] := by
  rw [StepSimulation_pair, ComputeForce_symmetric_pair fns hsqrt x v (-v) hx]
  have e1 : v + h * -(1 / (4 * x ^ 2)) / 1 = v - h / (4 * x ^ 2) := by ring
  have e2 : -v + h * (1 / (4 * x ^ 2)) / 1 = -(v - h / (4 * x ^ 2)) := by ring
  have e3 : (0 : ℝ) + h * -0 / 1 = 0 := by ring
  have e4 : (0 : ℝ) + h * 0 / 1 = 0 := by ring
  have e5 : (0 : ℝ) + h * 0 = 0 := by ring
  have e6 : -x + h * -(v - h / (4 * x ^ 2)) = -(x + h * (v - h / (4 * x ^ 2))) := by ring
  simp only [sampleObject, Vec2.mk_add_mk, Vec2.smul_mk, Vec2.mk_div, Vec2.neg_mk, e1, e2, e3,
    e4, e5, e6]

/-- C13: with `G = 1` and two bodies of mass 1 at `(1, 0)` and `(-1, 0)` with
zero velocities, over the reals, one `Update` with `dt = 0.01` and one sub-step
returns two bodies with velocities `(-0.0025, 0)` and `(0.0025, 0)` and
positions `(0.999975, 0)` and `(-0.999975, 0)`: the first body's `x` is below 1,
the second body's `x` is above `-1`, both `y` stay 0, and the two velocity
changes are opposite. -/
theorem Update_two_body_scenario (fns : MathFns ℝ) (hsqrt : fns.sqrt = Real.sqrt) :
    ∃ c1 c2 : VEGameObject ℝ,
      (GravityPhysicsSystem.mk (1 : ℝ)).Update fns
        [sampleObject 1 0 0 0 1, sampleObject (-1) 0 0 0 1] 0.01 1 = [c1, c2] ∧
      c1.m_RigidBody2D.Velocity = ⟨-0.0025, 0⟩ ∧ c2.m_RigidBody2D.Velocity = ⟨0.0025, 0⟩ ∧
      c1.m_Transform2D.Translation = ⟨0.999975, 0⟩ ∧
      c2.m_Transform2D.Translation = ⟨-0.999975, 0⟩ ∧
      c1.m_Transform2D.Translation.x < 1 ∧ -1 < c2.m_Transform2D.Translation.x ∧
      c1.m_RigidBody2D.Velocity - (sampleObject (1 : ℝ) 0 0 0 1).m_RigidBody2D.Velocity =
        -(c2.m_RigidBody2D.Velocity - (sampleObject (-1 : ℝ) 0 0 0 1).m_RigidBody2D.Velocity) := by
  have hstep := StepSimulation_symmetric_pair fns hsqrt 1 0 (0.01 / ((1 : Nat) : ℝ)) (by norm_num)
  rw [neg_zero] at hstep
  refine ⟨sampleObject (1 + 0.01 / ((1 : Nat) : ℝ) * (0 - 0.01 / ((1 : Nat) : ℝ) / (4 * 1 ^ 2))) 0
      (0 - 0.01 / ((1 : Nat) : ℝ) / (4 * 1 ^ 2)) 0 1,
    sampleObject (-(1 + 0.01 / ((1 : Nat) : ℝ) * (0 - 0.01 / ((1 : Nat) : ℝ) / (4 * 1 ^ 2)))) 0
      (-(0 - 0.01 / ((1 : Nat) : ℝ) / (4 * 1 ^ 2))) 0 1, ?_, ?_⟩
  · unfold GravityPhysicsSystem.Update
    simp only [List.range_succ, List.range_zero, List.nil_append, List.foldl_cons, List.foldl_nil]
    exact hstep
  · simp only [sampleObject]
    refine ⟨?_, ?_, ?_, ?_, ?_, ?_, ?_⟩
    · ext <;> norm_num
    · ext <;> norm_num
    · ext <;> norm_num
    · ext <;> norm_num
    · norm_num
    · norm_num
    · ext <;> norm_num

/-- The scenario with the real square root. -/
theorem Update_two_body_scenario_witness :
    (MathFns.mk Real.sqrt Real.log (fun y x => (Complex.mk x y).arg)).sqrt = Real.sqrt ∧
    ∃ c1 c2 : VEGameObject ℝ,
      (GravityPhysicsSystem.mk (1 : ℝ)).Update (MathFns.mk Real.sqrt Real.log (fun y x => (Complex.mk x y).arg))
        [sampleObject 1 0 0 0 1, sampleObject (-1) 0 0 0 1] 0.01 1 = [c1, c2] ∧
      c1.m_RigidBody2D.Velocity = ⟨-0.0025, 0⟩ ∧ c2.m_RigidBody2D.Velocity = ⟨0.0025, 0⟩ ∧
      c1.m_Transform2D.Translation = ⟨0.999975, 0⟩ ∧
      c2.m_Transform2D.Translation = ⟨-0.999975, 0⟩ ∧
      c1.m_Transform2D.Translation.x < 1 ∧ -1 < c2.m_Transform2D.Translation.x ∧
      c1.m_RigidBody2D.Velocity - (sampleObject (1 : ℝ) 0 0 0 1).m_RigidBody2D.Velocity =
        -(c2.m_RigidBody2D.Velocity - (sampleObject (-1 : ℝ) 0 0 0 1).m_RigidBody2D.Velocity) :=
  ⟨rfl, Update_two_body_scenario (MathFns.mk Real.sqrt Real.log (fun y x => (Complex.mk x y).arg)) rfl⟩

/-! ## The scale mapping and the field scenarios -/

theorem dot_self_eq_zero_iff {α : Type} [LinearOrderedField α] (v : Vec2 α) :
    dot v v = 0 ↔ v = 0 := by
  unfold dot
  rw [mul_self_add_mul_self_eq_zero]
  constructor
  · intro h
    ext
    · exact h.1
    · exact h.2
  · intro h
    rw [h]
    exact ⟨rfl, rfl⟩

theorem clamp_mem_unit {α : Type} [LinearOrderedField α] (t : α) :
    0 ≤ clamp t 0 1 ∧ clamp t 0 1 ≤ 1 := by
  unfold clamp
  exact ⟨le_min (le_max_right _ _) zero_le_one, min_le_right _ _⟩

theorem clamp_eq_zero_iff {α : Type} [LinearOrderedField α] (t : α) :
    clamp t 0 1 = 0 ↔ t ≤ 0 := by
  unfold clamp
  constructor
  · intro h
    rcases le_total (max t 0) 1 with h1 | h1
    · rw [min_eq_left h1] at h
      exact max_eq_right_iff.mp h
    · rw [min_eq_right h1] at h
      exact absurd h one_ne_zero
  · intro h
    rw [max_eq_right h, min_eq_left zero_le_one]

theorem fieldScale_eq_base_iff (d : Vec2 ℝ) :
    (0.005 : ℝ) + 0.045 * clamp (Real.log (Real.sqrt (dot d d) + 1) / 3) 0 1 = 0.005 ↔ d = 0 := by
  have hL : 0 ≤ Real.sqrt (dot d d) := Real.sqrt_nonneg _
  constructor
  · intro h
    have hc : clamp (Real.log (Real.sqrt (dot d d) + 1) / 3) 0 1 = 0 := by linarith
    have ht := (clamp_eq_zero_iff _).mp hc
    have hlog : Real.log (Real.sqrt (dot d d) + 1) ≤ 0 := by linarith
    have hle := (Real.log_nonpos_iff (by linarith)).mp hlog
    have hz : Real.sqrt (dot d d) = 0 := by linarith
    exact (dot_self_eq_zero_iff d).mp ((Real.sqrt_eq_zero (dot_self_nonneg d)).mp hz)
  · intro h
    have hd : dot d d = 0 := (dot_self_eq_zero_iff d).mpr h
    rw [hd, Real.sqrt_zero, zero_add, Real.log_one, zero_div,
      (clamp_eq_zero_iff (0 : ℝ)).mpr le_rfl]
    norm_num

theorem fieldScale_range (c : ℝ) (h0 : 0 ≤ c) (h1 : c ≤ 1) :
    (0.005 : ℝ) ≤ 0.005 + 0.045 * c ∧ (0.005 : ℝ) + 0.045 * c ≤ 0.05 := by
  constructor
  · have h : (0 : ℝ) ≤ 0.045 * c := mul_nonneg (by norm_num) h0
    linarith
  · have h : (0.045 : ℝ) * c ≤ 0.045 * 1 := mul_le_mul_of_nonneg_left h1 (by norm_num)
    have e : (0.005 : ℝ) + 0.045 * 1 = 0.05 := by norm_num
    linarith

theorem scaleRounded_zero :
    Vec2FieldSystem.scaleRounded round32 sqrt32 log32 0 = round32 0.005 := by
  decide!

/-- C20 (as stated, refuted in binary32): with `G = 1`, one body of mass 1 at
`(8192, 0)` and a sample of mass 1 at the origin, the net field vector the code
accumulates in binary32 arithmetic is `(2 ^ (-26), 0)`, which is not the zero
vector, yet `glm::length (direction) + 1` rounds to 1 and the scale assigned is
`0.005f`, the very value assigned for the zero field. -/
theorem Vec2FieldSystem_scale_base_counterexample :
    Vec2FieldSystem.directionRounded round32 sqrt32 (GravityPhysicsSystem.mk (1 : ℚ))
      [sampleObject 8192 0 0 0 1] (sampleObject 0 0 0 0 1) = ⟨1 / 2 ^ 26, 0⟩ ∧
    Vec2FieldSystem.directionRounded round32 sqrt32 (GravityPhysicsSystem.mk (1 : ℚ))
      [sampleObject 8192 0 0 0 1] (sampleObject 0 0 0 0 1) ≠ 0 ∧
    Vec2FieldSystem.scaleRounded round32 sqrt32 log32
      (Vec2FieldSystem.directionRounded round32 sqrt32 (GravityPhysicsSystem.mk (1 : ℚ))
        [sampleObject 8192 0 0 0 1] (sampleObject 0 0 0 0 1)) = round32 0.005 ∧
    Vec2FieldSystem.scaleRounded round32 sqrt32 log32 0 = round32 0.005 := by
  decide!

/-- C20 (amended): in exact real arithmetic, for every simulator, body list and
sample list, the `Scale.x` that `Vec2FieldSystem::Update` writes to the sample
at position `i` lies in the closed interval `[0.005, 0.05]`, and it is `0.005`
exactly when the net field vector at that sample (the sum of
`ComputeForce (b, sample)` over the bodies) is the zero vector; and in binary32
arithmetic, for every simulator, body list and sample, a zero accumulated field
vector gives the scale `0.005f` (the converse is not claimed there). -/
theorem Vec2FieldSystem_Update_scale_range_base (fns : MathFns ℝ) (hsqrt : fns.sqrt = Real.sqrt)
    (hlog : fns.log = Real.log) (physicsSystem : GravityPhysicsSystem ℝ)
    (physicsObjs vectorField : List (VEGameObject ℝ)) (i : Fin vectorField.length) :
    (∃ vf : VEGameObject ℝ,
      (Vec2FieldSystem.Update fns physicsSystem physicsObjs vectorField).2[i.val]? = some vf ∧
      0.005 ≤ vf.m_Transform2D.Scale.x ∧ vf.m_Transform2D.Scale.x ≤ 0.05 ∧
      (vf.m_Transform2D.Scale.x = 0.005 ↔
        (physicsObjs.map
          (fun b => physicsSystem.ComputeForce fns b (vectorField.get i))).sum = 0)) ∧
    (∀ (system32 : GravityPhysicsSystem ℚ) (objs32 : List (VEGameObject ℚ))
      (vf32 : VEGameObject ℚ),
      Vec2FieldSystem.directionRounded round32 sqrt32 system32 objs32 vf32 = 0 →
      Vec2FieldSystem.scaleRounded round32 sqrt32 log32
        (Vec2FieldSystem.directionRounded round32 sqrt32 system32 objs32 vf32) = round32 0.005) := by
  have hscale : ({ vectorField[i.val] with
        m_Transform2D.Scale.x := 0.005 + 0.045 * clamp (fns.log (length fns
          (Vec2FieldSystem.direction fns physicsSystem physicsObjs vectorField[i.val]) + 1) / 3) 0 1
        m_Transform2D.Rotation :=
          fns.atan2 (Vec2FieldSystem.direction fns physicsSystem physicsObjs vectorField[i.val]).y
            (Vec2FieldSystem.direction fns physicsSystem physicsObjs vectorField[i.val]).x }
        : VEGameObject ℝ).m_Transform2D.Scale.x =
      0.005 + 0.045 * clamp (Real.log (Real.sqrt
        (dot (physicsObjs.map (fun b => physicsSystem.ComputeForce fns b (vectorField.get i))).sum
          (physicsObjs.map (fun b => physicsSystem.ComputeForce fns b (vectorField.get i))).sum)
        + 1) / 3) 0 1 := by
    rw [← direction_eq_sum, ← hsqrt, ← hlog]
    rfl
  have hc := clamp_mem_unit (Real.log (Real.sqrt
        (dot (physicsObjs.map (fun b => physicsSystem.ComputeForce fns b (vectorField.get i))).sum
          (physicsObjs.map (fun b => physicsSystem.ComputeForce fns b (vectorField.get i))).sum)
        + 1) / 3)
  refine ⟨⟨_, Vec2FieldSystem_Update_getElem? fns physicsSystem physicsObjs vectorField i i.isLt,
    ?_, ?_, ?_⟩, ?_⟩
  · rw [hscale]
    exact (fieldScale_range _ hc.1 hc.2).1
  · rw [hscale]
    exact (fieldScale_range _ hc.1 hc.2).2
  · rw [hscale]
    exact fieldScale_eq_base_iff _
  · intro system32 objs32 vf32 hzero
    rw [hzero]
    exact scaleRounded_zero

/-- Over the reals, one body of mass 1 at `(2, 0)` and one sample of mass 1 at
the origin, with `G = 1`; in binary32, one body and one sample both at `(3, 4)`,
where the accumulated field vector is zero. -/
theorem Vec2FieldSystem_Update_scale_range_base_witness :
    (MathFns.mk Real.sqrt Real.log (fun y x => (Complex.mk x y).arg)).sqrt = Real.sqrt ∧
    (MathFns.mk Real.sqrt Real.log (fun y x => (Complex.mk x y).arg)).log = Real.log ∧
    (∃ vf : VEGameObject ℝ,
      (Vec2FieldSystem.Update (MathFns.mk Real.sqrt Real.log (fun y x => (Complex.mk x y).arg))
        (GravityPhysicsSystem.mk 1) [sampleObject 2 0 0 0 1] [sampleObject 0 0 0 0 1]).2[0]?
          = some vf ∧
      0.005 ≤ vf.m_Transform2D.Scale.x ∧ vf.m_Transform2D.Scale.x ≤ 0.05 ∧
      (vf.m_Transform2D.Scale.x = 0.005 ↔
        ([sampleObject (2 : ℝ) 0 0 0 1].map
          (fun b => (GravityPhysicsSystem.mk (1 : ℝ)).ComputeForce
            (MathFns.mk Real.sqrt Real.log (fun y x => (Complex.mk x y).arg)) b
            (sampleObject 0 0 0 0 1))).sum = 0)) ∧
    Vec2FieldSystem.directionRounded round32 sqrt32 (GravityPhysicsSystem.mk (1 : ℚ))
      [sampleObject 3 4 0 0 1] (sampleObject 3 4 0 0 1) = 0 ∧
    Vec2FieldSystem.scaleRounded round32 sqrt32 log32
      (Vec2FieldSystem.directionRounded round32 sqrt32 (GravityPhysicsSystem.mk (1 : ℚ))
        [sampleObject 3 4 0 0 1] (sampleObject 3 4 0 0 1)) = round32 0.005 :=
  ⟨rfl, rfl,
    (Vec2FieldSystem_Update_scale_range_base
      (MathFns.mk Real.sqrt Real.log (fun y x => (Complex.mk x y).arg)) rfl rfl
      (GravityPhysicsSystem.mk 1) [sampleObject 2 0 0 0 1] [sampleObject 0 0 0 0 1]
      ⟨0, by decide⟩).1,
    by decide!,
    (Vec2FieldSystem_Update_scale_range_base
      (MathFns.mk Real.sqrt Real.log (fun y x => (Complex.mk x y).arg)) rfl rfl
      (GravityPhysicsSystem.mk 1) [sampleObject 2 0 0 0 1] [sampleObject 0 0 0 0 1]
      ⟨0, by decide⟩).2
      (GravityPhysicsSystem.mk 1) [sampleObject 3 4 0 0 1] (sampleObject 3 4 0 0 1)
      (by decide!)⟩

/-- C15: over the reals, for an empty body list and any sample, the direction
`Vec2FieldSystem::Update` accumulates is the zero vector, and it writes the
scale `0.005` (the base scale) and the rotation `atan2 (0, 0) = 0`. -/
theorem Vec2FieldSystem_Update_no_bodies (fns : MathFns ℝ) (hsqrt : fns.sqrt = Real.sqrt)
    (hlog : fns.log = Real.log) (hatan2 : fns.atan2 = fun y x => (Complex.mk x y).arg)
    (physicsSystem : GravityPhysicsSystem ℝ)
    (vectorField : List (VEGameObject ℝ)) (i : Fin vectorField.length) :
    Vec2FieldSystem.direction fns physicsSystem [] (vectorField.get i) = ⟨0, 0⟩ ∧
    ∃ vf : VEGameObject ℝ,
      (Vec2FieldSystem.Update fns physicsSystem [] vectorField).2[i.val]? = some vf ∧
      vf.m_Transform2D.Scale.x = 0.005 ∧ vf.m_Transform2D.Rotation = 0 := by
  refine ⟨rfl, _, Vec2FieldSystem_Update_getElem? fns physicsSystem [] vectorField i i.isLt,
    ?_, ?_⟩
  · show (0.005 : ℝ) + 0.045 * clamp (fns.log (fns.sqrt (dot (0 : Vec2 ℝ) 0) + 1) / 3) 0 1 = 0.005
    rw [hsqrt, hlog]
    exact (fieldScale_eq_base_iff 0).mpr rfl
  · show fns.atan2 (0 : ℝ) 0 = 0
    rw [hatan2]
    exact Complex.arg_zero

/-- No body and one sample at `(3, 4)`, with `G = 1`. -/
theorem Vec2FieldSystem_Update_no_bodies_witness :
    (MathFns.mk Real.sqrt Real.log (fun y x => (Complex.mk x y).arg)).sqrt = Real.sqrt ∧ (MathFns.mk Real.sqrt Real.log (fun y x => (Complex.mk x y).arg)).log = Real.log ∧
    (MathFns.mk Real.sqrt Real.log (fun y x => (Complex.mk x y).arg)).atan2 = (fun y x => (Complex.mk x y).arg) ∧
    Vec2FieldSystem.direction (MathFns.mk Real.sqrt Real.log (fun y x => (Complex.mk x y).arg)) (GravityPhysicsSystem.mk 1) [] (sampleObject 3 4 0 0 1)
      = ⟨0, 0⟩ ∧
    ∃ vf : VEGameObject ℝ,
      (Vec2FieldSystem.Update (MathFns.mk Real.sqrt Real.log (fun y x => (Complex.mk x y).arg)) (GravityPhysicsSystem.mk 1) []
        [sampleObject 3 4 0 0 1]).2[0]? = some vf ∧
      vf.m_Transform2D.Scale.x = 0.005 ∧ vf.m_Transform2D.Rotation = 0 :=
  ⟨rfl, rfl, rfl,
    Vec2FieldSystem_Update_no_bodies (MathFns.mk Real.sqrt Real.log (fun y x => (Complex.mk x y).arg)) rfl rfl rfl (GravityPhysicsSystem.mk 1)
      [sampleObject 3 4 0 0 1] ⟨0, by decide⟩⟩

theorem direction_single_scenario (fns : MathFns ℝ) (hsqrt : fns.sqrt = Real.sqrt) :
    Vec2FieldSystem.direction fns (GravityPhysicsSystem.mk 1) [sampleObject 1 0 0 0 1]
      (sampleObject 0 0 0 0 1) = ⟨1, 0⟩ := by
  have hd : dot ((sampleObject (1 : ℝ) 0 0 0 1).m_Transform2D.Translation
        - (sampleObject (0 : ℝ) 0 0 0 1).m_Transform2D.Translation)
      ((sampleObject (1 : ℝ) 0 0 0 1).m_Transform2D.Translation
        - (sampleObject (0 : ℝ) 0 0 0 1).m_Transform2D.Translation) = 1 := by
    simp only [sampleObject, dot, Vec2.mk_sub_mk]
    norm_num
  have hnot : ¬ |(1 : ℝ)| < (1e-10 : ℝ) := by norm_num
  unfold Vec2FieldSystem.direction GravityPhysicsSystem.ComputeForce
  simp only [List.foldl_cons, List.foldl_nil, hd, if_neg hnot, hsqrt, Real.sqrt_one]
  simp only [sampleObject, Vec2.mk_sub_mk, Vec2.smul_mk, Vec2.mk_div]
  ext <;> simp

/-- C14: with `G = 1`, one body of mass 1 at `(1, 0)` and one sample of mass 1
at the origin, over the reals, the direction `Vec2FieldSystem::Update`
accumulates at the sample is exactly `(1, 0)`, a positive multiple of the
vector from the sample to the body, and the rotation written to the sample
is 0. -/
theorem Vec2FieldSystem_Update_single_scenario (fns : MathFns ℝ) (hsqrt : fns.sqrt = Real.sqrt)
    (hatan2 : fns.atan2 = fun y x => (Complex.mk x y).arg) :
    Vec2FieldSystem.direction fns (GravityPhysicsSystem.mk 1) [sampleObject 1 0 0 0 1]
      (sampleObject 0 0 0 0 1) = ⟨1, 0⟩ ∧
    (∃ k : ℝ, 0 < k ∧
      Vec2FieldSystem.direction fns (GravityPhysicsSystem.mk 1) [sampleObject 1 0 0 0 1]
        (sampleObject 0 0 0 0 1) =
      k • ((sampleObject (1 : ℝ) 0 0 0 1).m_Transform2D.Translation
        - (sampleObject (0 : ℝ) 0 0 0 1).m_Transform2D.Translation)) ∧
    ∃ vf : VEGameObject ℝ,
      (Vec2FieldSystem.Update fns (GravityPhysicsSystem.mk 1) [sampleObject 1 0 0 0 1]
        [sampleObject 0 0 0 0 1]).2 = [vf] ∧
      vf.m_Transform2D.Rotation = 0 := by
  have hdir := direction_single_scenario fns hsqrt
  refine ⟨hdir, ⟨1, one_pos, ?_⟩, _, rfl, ?_⟩
  · rw [hdir]
    simp only [sampleObject, Vec2.mk_sub_mk, Vec2.smul_mk]
    ext <;> simp
  · show fns.atan2
        (Vec2FieldSystem.direction fns (GravityPhysicsSystem.mk 1) [sampleObject 1 0 0 0 1]
          (sampleObject 0 0 0 0 1)).y
        (Vec2FieldSystem.direction fns (GravityPhysicsSystem.mk 1) [sampleObject 1 0 0 0 1]
          (sampleObject 0 0 0 0 1)).x = 0
    rw [hdir, hatan2]
    exact Complex.arg_one

/-- The scenario with the real square root and the argument of `x + i y` as
`atan2 (y, x)`. -/
theorem Vec2FieldSystem_Update_single_scenario_witness :
    (MathFns.mk Real.sqrt Real.log (fun y x => (Complex.mk x y).arg)).sqrt = Real.sqrt ∧
    (MathFns.mk Real.sqrt Real.log (fun y x => (Complex.mk x y).arg)).atan2 = (fun y x => (Complex.mk x y).arg) ∧
    Vec2FieldSystem.direction (MathFns.mk Real.sqrt Real.log (fun y x => (Complex.mk x y).arg)) (GravityPhysicsSystem.mk 1) [sampleObject 1 0 0 0 1]
      (sampleObject 0 0 0 0 1) = ⟨1, 0⟩ ∧
    (∃ k : ℝ, 0 < k ∧
      Vec2FieldSystem.direction (MathFns.mk Real.sqrt Real.log (fun y x => (Complex.mk x y).arg)) (GravityPhysicsSystem.mk 1) [sampleObject 1 0 0 0 1]
        (sampleObject 0 0 0 0 1) =
      k • ((sampleObject (1 : ℝ) 0 0 0 1).m_Transform2D.Translation
        - (sampleObject (0 : ℝ) 0 0 0 1).m_Transform2D.Translation)) ∧
    ∃ vf : VEGameObject ℝ,
      (Vec2FieldSystem.Update (MathFns.mk Real.sqrt Real.log (fun y x => (Complex.mk x y).arg)) (GravityPhysicsSystem.mk 1) [sampleObject 1 0 0 0 1]
        [sampleObject 0 0 0 0 1]).2 = [vf] ∧
      vf.m_Transform2D.Rotation = 0 :=
  ⟨rfl, rfl, Vec2FieldSystem_Update_single_scenario (MathFns.mk Real.sqrt Real.log (fun y x => (Complex.mk x y).arg)) rfl rfl⟩

/-! ## Angular momentum and momentum of any number of bodies -/

section conservation

variable {α : Type} [LinearOrderedField α]

theorem cross_add_right (u v w : Vec2 α) : cross u (v + w) = cross u v + cross u w := by
  simp only [cross, Vec2.add_x, Vec2.add_y]
  ring

theorem cross_zero_right (u : Vec2 α) : cross u 0 = 0 := by
  simp [cross]

theorem cross_smul_right (u v : Vec2 α) (s : α) : cross u (s • v) = s * cross u v := by
  simp only [cross, Vec2.smul_x, Vec2.smul_y]
  ring

theorem cross_sum_right (u : Vec2 α) (s : Finset Nat) (f : Nat → Vec2 α) :
    cross u (∑ j ∈ s, f j) = ∑ j ∈ s, cross u (f j) := by
  induction s using Finset.induction_on with
  | empty => simp [cross_zero_right]
  | insert hj ih => rw [Finset.sum_insert hj, Finset.sum_insert hj, cross_add_right, ih]

theorem cross_offset_ComputeForce (self : GravityPhysicsSystem α) (fns : MathFns α)
    (A B : VEGameObject α) :
    cross (A.m_Transform2D.Translation - B.m_Transform2D.Translation)
      (self.ComputeForce fns A B) = 0 := by
  unfold GravityPhysicsSystem.ComputeForce
  simp only []
  split_ifs with h
  · simp [cross]
  · simp only [cross, Vec2.div_x, Vec2.div_y, Vec2.smul_x, Vec2.smul_y]
    ring

theorem mass_smul_netKick (self : GravityPhysicsSystem α) (fns : MathFns α)
    (objs : List (VEGameObject α)) (d : VEGameObject α) (dt : α) (i : Nat)
    (hi : i < objs.length) (hmass : (objs.getD i d).m_RigidBody2D.Mass ≠ 0) :
    (objs.getD i d).m_RigidBody2D.Mass • netKick self fns objs d dt i =
      ∑ j ∈ Finset.range objs.length,
        if j = i then 0 else dt • self.ComputeForce fns (objs.getD j d) (objs.getD i d) := by
  rw [netKick_eq_sum self fns objs d dt i hi, Finset.smul_sum]
  apply Finset.sum_congr rfl
  intro j _
  by_cases hji : j = i
  · simp [hji]
  · rw [if_neg hji, if_neg hji, smul_smul, mul_div_cancel₀ _ hmass]

theorem sum_cross_mass_smul_netKick (self : GravityPhysicsSystem α) (fns : MathFns α)
    (objs : List (VEGameObject α)) (d : VEGameObject α) (dt : α)
    (hmass : ∀ i, i < objs.length → (objs.getD i d).m_RigidBody2D.Mass ≠ 0) :
    ∑ i ∈ Finset.range objs.length,
      cross (objs.getD i d).m_Transform2D.Translation
        ((objs.getD i d).m_RigidBody2D.Mass • netKick self fns objs d dt i) = 0 := by
  have h1 : ∀ i ∈ Finset.range objs.length,
      cross (objs.getD i d).m_Transform2D.Translation
        ((objs.getD i d).m_RigidBody2D.Mass • netKick self fns objs d dt i) =
        ∑ j ∈ Finset.range objs.length,
          if j = i then 0 else
            dt * cross (objs.getD i d).m_Transform2D.Translation
              (self.ComputeForce fns (objs.getD j d) (objs.getD i d)) := by
    intro i hi
    have hi' := Finset.mem_range.mp hi
    rw [mass_smul_netKick self fns objs d dt i hi' (hmass i hi'), cross_sum_right]
    apply Finset.sum_congr rfl
    intro j _
    by_cases hji : j = i
    · simp [hji, cross_zero_right]
    · rw [if_neg hji, if_neg hji, cross_smul_right]
  rw [Finset.sum_congr rfl h1]
  set S := ∑ i ∈ Finset.range objs.length, ∑ j ∈ Finset.range objs.length,
    (if j = i then (0 : α)
      else dt * cross (objs.getD i d).m_Transform2D.Translation
        (self.ComputeForce fns (objs.getD j d) (objs.getD i d))) with hS
  have hneg : S = -S := by
    conv_lhs => rw [hS, Finset.sum_comm]
    rw [hS, ← Finset.sum_neg_distrib]
    apply Finset.sum_congr rfl
    intro i _
    rw [← Finset.sum_neg_distrib]
    apply Finset.sum_congr rfl
    intro j _
    by_cases hji : j = i
    · simp [hji]
    · have hij : ¬ i = j := fun h => hji h.symm
      rw [if_neg hji, if_neg hij]
      have hc := cross_offset_ComputeForce self fns (objs.getD j d) (objs.getD i d)
      have hswap := ComputeForce_neg_swap self fns (objs.getD i d) (objs.getD j d)
      rw [hswap]
      simp only [cross, Vec2.neg_x, Vec2.neg_y, Vec2.sub_x, Vec2.sub_y] at hc ⊢
      linear_combination (-dt) * hc
  linarith

theorem StepSimulation_totalAngularMomentum (self : GravityPhysicsSystem α) (fns : MathFns α)
    (objs : List (VEGameObject α)) (dt : α)
    (hmass : ∀ obj ∈ objs, obj.m_RigidBody2D.Mass ≠ 0) :
    totalAngularMomentum (self.StepSimulation fns objs dt) = totalAngularMomentum objs := by
  have hm : ∀ i, i < objs.length →
      (objs.getD i (sampleObject 0 0 0 0 0)).m_RigidBody2D.Mass ≠ 0 := by
    intro i hi
    rw [List.getD_eq_getElem _ _ hi]
    exact hmass _ (List.getElem_mem hi)
  have hpoint : ∀ i ∈ Finset.range objs.length,
      ((self.StepSimulation fns objs dt).getD i (sampleObject 0 0 0 0 0)).m_RigidBody2D.Mass *
          (((self.StepSimulation fns objs dt).getD i
                (sampleObject 0 0 0 0 0)).m_Transform2D.Translation.x *
              ((self.StepSimulation fns objs dt).getD i
                (sampleObject 0 0 0 0 0)).m_RigidBody2D.Velocity.y
            - ((self.StepSimulation fns objs dt).getD i
                (sampleObject 0 0 0 0 0)).m_Transform2D.Translation.y *
              ((self.StepSimulation fns objs dt).getD i
                (sampleObject 0 0 0 0 0)).m_RigidBody2D.Velocity.x) =
        (objs.getD i (sampleObject 0 0 0 0 0)).m_RigidBody2D.Mass *
            ((objs.getD i (sampleObject 0 0 0 0 0)).m_Transform2D.Translation.x *
                (objs.getD i (sampleObject 0 0 0 0 0)).m_RigidBody2D.Velocity.y
              - (objs.getD i (sampleObject 0 0 0 0 0)).m_Transform2D.Translation.y *
                (objs.getD i (sampleObject 0 0 0 0 0)).m_RigidBody2D.Velocity.x) +
          cross (objs.getD i (sampleObject 0 0 0 0 0)).m_Transform2D.Translation
            ((objs.getD i (sampleObject 0 0 0 0 0)).m_RigidBody2D.Mass •
              netKick self fns objs (sampleObject 0 0 0 0 0) dt i) := by
    intro i hi
    have hi' := Finset.mem_range.mp hi
    rw [List.getD_eq_getElem?_getD,
      StepSimulation_getElem? self fns objs (sampleObject 0 0 0 0 0) dt i hi',
      List.getD_eq_getElem _ _ hi']
    simp only [Option.getD_some, cross, Vec2.add_x, Vec2.add_y, Vec2.smul_x, Vec2.smul_y]
    ring
  unfold totalAngularMomentum
  rw [sum_map_eq_sum_range_getD _ (sampleObject 0 0 0 0 0),
    sum_map_eq_sum_range_getD _ (sampleObject 0 0 0 0 0) objs, StepSimulation_length,
    Finset.sum_congr rfl hpoint, Finset.sum_add_distrib,
    sum_cross_mass_smul_netKick self fns objs (sampleObject 0 0 0 0 0) dt hm, add_zero]

/-- C19: for every body list with nonzero masses and every `subDt`, the sum
over the bodies of `mass * (position.x * velocity.y - position.y * velocity.x)`
taken on the positions and velocities after `StepSimulation` equals the same sum
taken before the step: one step conserves the total angular momentum about the
origin exactly. -/
theorem StepSimulation_angular_momentum (self : GravityPhysicsSystem α) (fns : MathFns α)
    (objs : List (VEGameObject α)) (subDt : α)
    (hmass : ∀ obj ∈ objs, obj.m_RigidBody2D.Mass ≠ 0) :
    ((self.StepSimulation fns objs subDt).map (fun obj => obj.m_RigidBody2D.Mass *
      (obj.m_Transform2D.Translation.x * obj.m_RigidBody2D.Velocity.y
        - obj.m_Transform2D.Translation.y * obj.m_RigidBody2D.Velocity.x))).sum =
    (objs.map (fun obj => obj.m_RigidBody2D.Mass *
      (obj.m_Transform2D.Translation.x * obj.m_RigidBody2D.Velocity.y
        - obj.m_Transform2D.Translation.y * obj.m_RigidBody2D.Velocity.x))).sum :=
  StepSimulation_totalAngularMomentum self fns objs subDt hmass

/-- Three bodies of masses 2, 1 and 3 over the reals, `subDt = 1 / 100`. -/
theorem StepSimulation_angular_momentum_witness :
    (∀ obj ∈ [sampleObject (1 : ℝ) 0 0 1 2, sampleObject (-1) 0 0 (-1) 1, sampleObject 0 2 1 0 3],
      obj.m_RigidBody2D.Mass ≠ 0) ∧
    (((GravityPhysicsSystem.mk (1 : ℝ)).StepSimulation (MathFns.mk Real.sqrt Real.log (fun y x => (Complex.mk x y).arg))
        [sampleObject (1 : ℝ) 0 0 1 2, sampleObject (-1) 0 0 (-1) 1, sampleObject 0 2 1 0 3]
        (1 / 100)).map (fun obj => obj.m_RigidBody2D.Mass *
      (obj.m_Transform2D.Translation.x * obj.m_RigidBody2D.Velocity.y
        - obj.m_Transform2D.Translation.y * obj.m_RigidBody2D.Velocity.x))).sum =
    ([sampleObject (1 : ℝ) 0 0 1 2, sampleObject (-1) 0 0 (-1) 1, sampleObject 0 2 1 0 3].map
      (fun obj => obj.m_RigidBody2D.Mass *
        (obj.m_Transform2D.Translation.x * obj.m_RigidBody2D.Velocity.y
          - obj.m_Transform2D.Translation.y * obj.m_RigidBody2D.Velocity.x))).sum :=
  ⟨by
      intro obj hobj
      simp only [List.mem_cons, List.mem_singleton, List.not_mem_nil, or_false] at hobj
      rcases hobj with h | h | h <;> rw [h] <;> simp [sampleObject],
    StepSimulation_angular_momentum (GravityPhysicsSystem.mk (1 : ℝ)) (MathFns.mk Real.sqrt Real.log (fun y x => (Complex.mk x y).arg))
      [sampleObject (1 : ℝ) 0 0 1 2, sampleObject (-1) 0 0 (-1) 1, sampleObject 0 2 1 0 3]
      (1 / 100)
      (by
        intro obj hobj
        simp only [List.mem_cons, List.mem_singleton, List.not_mem_nil, or_false] at hobj
        rcases hobj with h | h | h <;> rw [h] <;> simp [sampleObject])⟩

/-- C18: for every body list, of any length, with nonzero masses, the sum over
the bodies of `mass * velocity` after `StepSimulation` equals the sum before it,
for every `subDt`; and so does the sum after `Update`, for every `dt` and every
number of sub-steps. -/
theorem StepSimulation_momentum_any_number (self : GravityPhysicsSystem α) (fns : MathFns α)
    (objs : List (VEGameObject α))
    (hmass : ∀ obj ∈ objs, obj.m_RigidBody2D.Mass ≠ 0) :
    (∀ subDt : α,
      ((self.StepSimulation fns objs subDt).map
          (fun obj => obj.m_RigidBody2D.Mass • obj.m_RigidBody2D.Velocity)).sum =
        (objs.map (fun obj => obj.m_RigidBody2D.Mass • obj.m_RigidBody2D.Velocity)).sum) ∧
    (∀ (dt : α) (substeps : Nat),
      ((self.Update fns objs dt substeps).map
          (fun obj => obj.m_RigidBody2D.Mass • obj.m_RigidBody2D.Velocity)).sum =
        (objs.map (fun obj => obj.m_RigidBody2D.Mass • obj.m_RigidBody2D.Velocity)).sum) :=
  ⟨fun subDt => StepSimulation_totalMomentum self fns objs subDt hmass,
    fun dt substeps => (Update_momentum self fns objs dt substeps hmass).2⟩

/-- Three bodies of masses 2, 1 and 3 over the reals: one step with
`subDt = 1 / 100`, and one `Update` with `dt = 1 / 60` and 5 sub-steps. -/
theorem StepSimulation_momentum_any_number_witness :
    (∀ obj ∈ [sampleObject (1 : ℝ) 0 0 1 2, sampleObject (-1) 0 0 (-1) 1, sampleObject 0 2 1 0 3],
      obj.m_RigidBody2D.Mass ≠ 0) ∧
    (((GravityPhysicsSystem.mk (1 : ℝ)).StepSimulation (MathFns.mk Real.sqrt Real.log (fun y x => (Complex.mk x y).arg))
        [sampleObject (1 : ℝ) 0 0 1 2, sampleObject (-1) 0 0 (-1) 1, sampleObject 0 2 1 0 3]
        (1 / 100)).map (fun obj => obj.m_RigidBody2D.Mass • obj.m_RigidBody2D.Velocity)).sum =
      ([sampleObject (1 : ℝ) 0 0 1 2, sampleObject (-1) 0 0 (-1) 1, sampleObject 0 2 1 0 3].map
        (fun obj => obj.m_RigidBody2D.Mass • obj.m_RigidBody2D.Velocity)).sum ∧
    (((GravityPhysicsSystem.mk (1 : ℝ)).Update (MathFns.mk Real.sqrt Real.log (fun y x => (Complex.mk x y).arg))
        [sampleObject (1 : ℝ) 0 0 1 2, sampleObject (-1) 0 0 (-1) 1, sampleObject 0 2 1 0 3]
        (1 / 60) 5).map (fun obj => obj.m_RigidBody2D.Mass • obj.m_RigidBody2D.Velocity)).sum =
      ([sampleObject (1 : ℝ) 0 0 1 2, sampleObject (-1) 0 0 (-1) 1, sampleObject 0 2 1 0 3].map
        (fun obj => obj.m_RigidBody2D.Mass • obj.m_RigidBody2D.Velocity)).sum :=
  ⟨by
      intro obj hobj
      simp only [List.mem_cons, List.mem_singleton, List.not_mem_nil, or_false] at hobj
      rcases hobj with h | h | h <;> rw [h] <;> simp [sampleObject],
    (StepSimulation_momentum_any_number (GravityPhysicsSystem.mk (1 : ℝ)) (MathFns.mk Real.sqrt Real.log (fun y x => (Complex.mk x y).arg))
      [sampleObject (1 : ℝ) 0 0 1 2, sampleObject (-1) 0 0 (-1) 1, sampleObject 0 2 1 0 3]
      (by
        intro obj hobj
        simp only [List.mem_cons, List.mem_singleton, List.not_mem_nil, or_false] at hobj
        rcases hobj with h | h | h <;> rw [h] <;> simp [sampleObject])).1 (1 / 100),
    (StepSimulation_momentum_any_number (GravityPhysicsSystem.mk (1 : ℝ)) (MathFns.mk Real.sqrt Real.log (fun y x => (Complex.mk x y).arg))
      [sampleObject (1 : ℝ) 0 0 1 2, sampleObject (-1) 0 0 (-1) 1, sampleObject 0 2 1 0 3]
      (by
        intro obj hobj
        simp only [List.mem_cons, List.mem_singleton, List.not_mem_nil, or_false] at hobj
        rcases hobj with h | h | h <;> rw [h] <;> simp [sampleObject])).2 (1 / 60) 5⟩

end conservation

/-! ## Totality: no division by zero -/

section totality

variable {α : Type} [LinearOrderedField α]

theorem checkedDiv_of_ne_zero (x y : α) (hy : y ≠ 0) : checkedDiv x y = some (x / y) := by
  unfold checkedDiv
  rw [if_neg hy]

theorem Vec2.checkedDiv_eq_some (v : Vec2 α) (s : α) (hs : s ≠ 0) :
    Vec2.checkedDiv v s = some (v / s) := by
  unfold Vec2.checkedDiv
  rw [if_neg hs]

theorem ComputeForceChecked_eq_some (self : GravityPhysicsSystem α) (fns : MathFns α)
    (hs : ∀ x : α, 0 < x → fns.sqrt x ≠ 0) (fromObj toObj : VEGameObject α) :
    self.ComputeForceChecked fns fromObj toObj = some (self.ComputeForce fns fromObj toObj) := by
  unfold GravityPhysicsSystem.ComputeForceChecked GravityPhysicsSystem.ComputeForce
  simp only []
  split_ifs with h
  · rfl
  · have hge : (1e-10 : α) ≤ dot
          (fromObj.m_Transform2D.Translation - toObj.m_Transform2D.Translation)
          (fromObj.m_Transform2D.Translation - toObj.m_Transform2D.Translation) := by
      rw [abs_of_nonneg (dot_self_nonneg _)] at h
      exact not_lt.mp h
    have hpos : (0 : α) < dot
          (fromObj.m_Transform2D.Translation - toObj.m_Transform2D.Translation)
          (fromObj.m_Transform2D.Translation - toObj.m_Transform2D.Translation) :=
      lt_of_lt_of_le (by norm_num) hge
    rw [checkedDiv_of_ne_zero _ _ hpos.ne']
    simp only [Option.bind_eq_bind, Option.some_bind]
    rw [Vec2.checkedDiv_eq_some _ _ (hs _ hpos)]

theorem foldlM_eq_some_foldl {σ β : Type} (fM : σ → β → Option σ) (f : σ → β → σ)
    (P : σ → Prop) (l : List β) (s : σ) (hP : P s)
    (hstep : ∀ s b, P s → b ∈ l → fM s b = some (f s b) ∧ P (f s b)) :
    l.foldlM fM s = some (l.foldl f s) ∧ P (l.foldl f s) := by
  induction l generalizing s with
  | nil => exact ⟨rfl, hP⟩
  | cons b l ih =>
    obtain ⟨h1, h2⟩ := hstep s b hP (List.mem_cons_self b l)
    rw [List.foldlM_cons, h1, List.foldl_cons]
    simp only [Option.bind_eq_bind, Option.some_bind]
    exact ih (f s b) h2 (fun s' b' hp hb => hstep s' b' hp (List.mem_cons_of_mem b hb))

theorem modify_congr_at {β : Type} (f g : β → β) (a : Nat) (l : List β)
    (h : ∀ x, l[a]? = some x → f x = g x) : l.modify f a = l.modify g a := by
  apply List.ext_getElem?
  intro m
  rw [List.getElem?_modify, List.getElem?_modify]
  rcases hm : l[m]? with _ | x
  · rfl
  · by_cases ham : a = m
    · subst ham
      simp only [Option.map_eq_map, Option.map_some', if_true, h x hm]
    · simp only [Option.map_eq_map, Option.map_some', if_neg ham]

theorem map_Mass_modify_velocity {α : Type} (l : List (VEGameObject α)) (a : Nat)
    (k : VEGameObject α → Vec2 α) :
    (l.modify (fun obj => { obj with m_RigidBody2D.Velocity := k obj }) a).map
        (fun obj => obj.m_RigidBody2D.Mass) = l.map (fun obj => obj.m_RigidBody2D.Mass) := by
  apply List.ext_getElem?
  intro m
  rw [List.getElem?_map, List.getElem?_map, List.getElem?_modify]
  rcases l[m]? with _ | x
  · rfl
  · by_cases ham : a = m
    · simp only [Option.map_eq_map, Option.map_some', if_pos ham]
    · simp only [Option.map_eq_map, Option.map_some', if_neg ham]

theorem applyPair_map_Mass (self : GravityPhysicsSystem α) (fns : MathFns α) (dt : α)
    (a b : Nat) (st : List (VEGameObject α)) :
    (self.applyPair fns dt a b st).map (fun obj => obj.m_RigidBody2D.Mass) =
      st.map (fun obj => obj.m_RigidBody2D.Mass) := by
  unfold GravityPhysicsSystem.applyPair
  rcases hA : st[a]? with _ | objA
  · rfl
  · rcases hB : st[b]? with _ | objB
    · rfl
    · simp only []
      rw [map_Mass_modify_velocity, map_Mass_modify_velocity]

theorem mass_ne_zero_of_getElem? (objs st : List (VEGameObject α))
    (h : st.map (fun obj => obj.m_RigidBody2D.Mass) = objs.map (fun obj => obj.m_RigidBody2D.Mass))
    (hmass : ∀ obj ∈ objs, obj.m_RigidBody2D.Mass ≠ 0) (a : Nat) (objA : VEGameObject α)
    (hA : st[a]? = some objA) : objA.m_RigidBody2D.Mass ≠ 0 :=
  mass_ne_zero_of_map_eq objs st h hmass objA (List.getElem?_mem hA)

theorem applyPairChecked_eq_some (self : GravityPhysicsSystem α) (fns : MathFns α)
    (hs : ∀ x : α, 0 < x → fns.sqrt x ≠ 0) (dt : α) (a b : Nat) (hab : a ≠ b)
    (st : List (VEGameObject α)) (hmass : ∀ obj ∈ st, obj.m_RigidBody2D.Mass ≠ 0) :
    self.applyPairChecked fns dt a b st = some (self.applyPair fns dt a b st) := by
  unfold GravityPhysicsSystem.applyPairChecked GravityPhysicsSystem.applyPair
  rcases hA : st[a]? with _ | objA
  · rfl
  · rcases hB : st[b]? with _ | objB
    · rfl
    · have hmA : objA.m_RigidBody2D.Mass ≠ 0 := hmass objA (List.getElem?_mem hA)
      have hmB : objB.m_RigidBody2D.Mass ≠ 0 := hmass objB (List.getElem?_mem hB)
      simp only [ComputeForceChecked_eq_some self fns hs, Option.bind_eq_bind, Option.some_bind,
        Vec2.checkedDiv_eq_some _ _ hmA, Vec2.checkedDiv_eq_some _ _ hmB, Option.pure_def]
      apply congrArg some
      refine Eq.trans (congrArg (List.modify _ b) (modify_congr_at _ _ a st ?_))
        (modify_congr_at _ _ b _ ?_)
      · intro x hx
        rw [hA] at hx
        cases hx
        rfl
      · intro x hx
        rw [List.getElem?_modify, hB] at hx
        simp only [Option.map_eq_map, Option.map_some', if_neg hab, Option.some.injEq] at hx
        rw [← hx]

theorem applyForcesChecked_eq_some (self : GravityPhysicsSystem α) (fns : MathFns α)
    (hs : ∀ x : α, 0 < x → fns.sqrt x ≠ 0) (objs : List (VEGameObject α)) (dt : α)
    (hmass : ∀ obj ∈ objs, obj.m_RigidBody2D.Mass ≠ 0) :
    self.applyForcesChecked fns objs dt = some (self.applyForces fns objs dt) := by
  unfold GravityPhysicsSystem.applyForcesChecked GravityPhysicsSystem.applyForces
  refine (foldlM_eq_some_foldl _ _
    (fun st => st.map (fun obj => obj.m_RigidBody2D.Mass)
      = objs.map (fun obj => obj.m_RigidBody2D.Mass)) _ objs rfl ?_).1
  intro st a hst _
  refine foldlM_eq_some_foldl _ _
    (fun st => st.map (fun obj => obj.m_RigidBody2D.Mass)
      = objs.map (fun obj => obj.m_RigidBody2D.Mass)) _ st hst ?_
  intro st' b hst' _
  by_cases hab : a = b
  · constructor
    · rw [if_pos hab, if_pos hab]
    · rw [if_pos hab]
      exact hst'
  · simp only [if_neg hab]
    exact ⟨applyPairChecked_eq_some self fns hs dt a b hab st'
        (mass_ne_zero_of_map_eq objs st' hst' hmass),
      (applyPair_map_Mass self fns dt a b st').trans hst'⟩

theorem StepSimulationChecked_eq_some (self : GravityPhysicsSystem α) (fns : MathFns α)
    (hs : ∀ x : α, 0 < x → fns.sqrt x ≠ 0) (objs : List (VEGameObject α)) (dt : α)
    (hmass : ∀ obj ∈ objs, obj.m_RigidBody2D.Mass ≠ 0) :
    self.StepSimulationChecked fns objs dt = some (self.StepSimulation fns objs dt) := by
  unfold GravityPhysicsSystem.StepSimulationChecked GravityPhysicsSystem.StepSimulation
  rw [applyForcesChecked_eq_some self fns hs objs dt hmass]
  rfl

theorem UpdateChecked_eq_some (self : GravityPhysicsSystem α) (fns : MathFns α)
    (hs : ∀ x : α, 0 < x → fns.sqrt x ≠ 0) (objs : List (VEGameObject α)) (dt : α)
    (substeps : Nat) (hsub : 0 < substeps)
    (hmass : ∀ obj ∈ objs, obj.m_RigidBody2D.Mass ≠ 0) :
    self.UpdateChecked fns objs dt substeps = some (self.Update fns objs dt substeps) := by
  have hne : ((substeps : Nat) : α) ≠ 0 := Nat.cast_ne_zero.mpr hsub.ne'
  unfold GravityPhysicsSystem.UpdateChecked GravityPhysicsSystem.Update
  rw [checkedDiv_of_ne_zero _ _ hne]
  simp only [Option.bind_eq_bind, Option.some_bind]
  refine (foldlM_eq_some_foldl _ _
    (fun st => st.map (fun obj => obj.m_RigidBody2D.Mass)
      = objs.map (fun obj => obj.m_RigidBody2D.Mass)) _ objs rfl ?_).1
  intro st _ hst _
  exact ⟨StepSimulationChecked_eq_some self fns hs st _
      (mass_ne_zero_of_map_eq objs st hst hmass),
    (StepSimulation_map_Mass self fns st _).trans hst⟩

theorem directionChecked_eq_some (fns : MathFns α) (physicsSystem : GravityPhysicsSystem α)
    (hs : ∀ x : α, 0 < x → fns.sqrt x ≠ 0) (physicsObjs : List (VEGameObject α))
    (vf : VEGameObject α) :
    Vec2FieldSystem.directionChecked fns physicsSystem physicsObjs vf =
      some (Vec2FieldSystem.direction fns physicsSystem physicsObjs vf) := by
  unfold Vec2FieldSystem.directionChecked Vec2FieldSystem.direction
  refine (foldlM_eq_some_foldl _ _ (fun _ => True) _ 0 trivial ?_).1
  intro d obj _ _
  rw [ComputeForceChecked_eq_some physicsSystem fns hs]
  exact ⟨rfl, trivial⟩

theorem mapM_eq_some_map {β γ : Type} (fM : β → Option γ) (f : β → γ) (l : List β)
    (h : ∀ b, fM b = some (f b)) : l.mapM fM = some (l.map f) := by
  induction l with
  | nil => rfl
  | cons b l ih =>
    rw [List.mapM_cons, h b, ih]
    rfl

theorem Vec2FieldSystem_UpdateChecked_eq_some (fns : MathFns α)
    (physicsSystem : GravityPhysicsSystem α) (hs : ∀ x : α, 0 < x → fns.sqrt x ≠ 0)
    (physicsObjs vectorField : List (VEGameObject α)) :
    Vec2FieldSystem.UpdateChecked fns physicsSystem physicsObjs vectorField =
      some (Vec2FieldSystem.Update fns physicsSystem physicsObjs vectorField) := by
  unfold Vec2FieldSystem.UpdateChecked Vec2FieldSystem.Update
  rw [mapM_eq_some_map _ (fun vf =>
    let direction := Vec2FieldSystem.direction fns physicsSystem physicsObjs vf
    let vf1 := { vf with m_Transform2D.Scale.x :=
      0.005 + 0.045 * clamp (fns.log (length fns direction + 1) / 3) 0 1 }
    { vf1 with m_Transform2D.Rotation := fns.atan2 direction.y direction.x })]
  · rfl
  · intro vf
    rw [directionChecked_eq_some fns physicsSystem hs]
    simp only [Option.bind_eq_bind, Option.some_bind]
    rw [checkedDiv_of_ne_zero _ _ (by norm_num : (3 : α) ≠ 0)]
    rfl

end totality

/-- The checks are effective: with a body of mass 0 the checked step fails, at
the division of the first velocity update by that mass. -/
theorem StepSimulationChecked_zero_mass (fns : MathFns ℝ) (hsqrt : fns.sqrt = Real.sqrt) :
    (GravityPhysicsSystem.mk (1 : ℝ)).StepSimulationChecked fns
      [sampleObject 1 0 0 0 0, sampleObject (-1) 0 0 0 1] 0.01 = none := by
  have hs : ∀ x : ℝ, 0 < x → fns.sqrt x ≠ 0 := by
    intro x hx
    rw [hsqrt]
    exact (Real.sqrt_pos.mpr hx).ne'
  have hpair : (GravityPhysicsSystem.mk (1 : ℝ)).applyPairChecked fns 0.01 0 1
      [sampleObject 1 0 0 0 0, sampleObject (-1) 0 0 0 1] = none := by
    unfold GravityPhysicsSystem.applyPairChecked
    simp only [List.getElem?_cons_zero, List.getElem?_cons_succ,
      ComputeForceChecked_eq_some _ fns hs, Option.bind_eq_bind, Option.some_bind]
    have hz : Vec2.checkedDiv ((0.01 : ℝ) • -(GravityPhysicsSystem.mk (1 : ℝ)).ComputeForce fns
        (sampleObject 1 0 0 0 0) (sampleObject (-1) 0 0 0 1))
        (sampleObject (1 : ℝ) 0 0 0 0).m_RigidBody2D.Mass = none := by
      unfold Vec2.checkedDiv
      exact if_pos rfl
    rw [hz]
    rfl
  unfold GravityPhysicsSystem.StepSimulationChecked GravityPhysicsSystem.applyForcesChecked
  simp only [List.length_cons, List.length_nil, List.range_succ, List.range_zero, List.nil_append,
    List.cons_append, List.foldlM_cons, List.foldlM_nil, List.range', Nat.sub_zero, Nat.reduceAdd,
    Nat.reduceSub, if_true, Option.bind_eq_bind, Option.some_bind, Option.pure_def]
  simp [hpair]

/-- C16: over the reals, for every body list in which every mass is nonzero,
every `dt` and every positive number of sub-steps, `Update` with every division
checked (by `substeps`, by the masses, by `distanceSquared` and by its square
root) succeeds and returns what `Update` returns; so do `StepSimulation` for
every `subDt` and `ComputeForce` for every pair of bodies; and
`Vec2FieldSystem::Update` with every division checked succeeds for every
simulator, body list and sample list: no division has a zero divisor. -/
theorem Update_no_zero_divisor (self : GravityPhysicsSystem ℝ) (fns : MathFns ℝ)
    (hsqrt : fns.sqrt = Real.sqrt) (objs : List (VEGameObject ℝ))
    (hmass : ∀ obj ∈ objs, obj.m_RigidBody2D.Mass ≠ 0) :
    (∀ (dt : ℝ) (substeps : Nat), 0 < substeps →
      self.UpdateChecked fns objs dt substeps = some (self.Update fns objs dt substeps)) ∧
    (∀ subDt : ℝ,
      self.StepSimulationChecked fns objs subDt = some (self.StepSimulation fns objs subDt)) ∧
    (∀ fromObj toObj : VEGameObject ℝ,
      self.ComputeForceChecked fns fromObj toObj = some (self.ComputeForce fns fromObj toObj)) ∧
    (∀ physicsObjs vectorField : List (VEGameObject ℝ),
      Vec2FieldSystem.UpdateChecked fns self physicsObjs vectorField =
        some (Vec2FieldSystem.Update fns self physicsObjs vectorField)) := by
  have hs : ∀ x : ℝ, 0 < x → fns.sqrt x ≠ 0 := by
    intro x hx
    rw [hsqrt]
    exact (Real.sqrt_pos.mpr hx).ne'
  exact ⟨fun dt substeps hsub => UpdateChecked_eq_some self fns hs objs dt substeps hsub hmass,
    fun subDt => StepSimulationChecked_eq_some self fns hs objs subDt hmass,
    fun fromObj toObj => ComputeForceChecked_eq_some self fns hs fromObj toObj,
    fun physicsObjs vectorField =>
      Vec2FieldSystem_UpdateChecked_eq_some fns self hs physicsObjs vectorField⟩

/-- Three bodies of masses 2, 1 and 3 over the reals with `G = 1`: one `Update`
with `dt = 1 / 60` and 5 sub-steps, and one `Vec2FieldSystem::Update` with one
sample at the position of the first body. -/
theorem Update_no_zero_divisor_witness :
    (MathFns.mk Real.sqrt Real.log (fun y x => (Complex.mk x y).arg)).sqrt = Real.sqrt ∧
    (∀ obj ∈ [sampleObject (1 : ℝ) 0 0 1 2, sampleObject (-1) 0 0 (-1) 1, sampleObject 0 2 1 0 3],
      obj.m_RigidBody2D.Mass ≠ 0) ∧
    (0 : Nat) < 5 ∧
    ((GravityPhysicsSystem.mk (1 : ℝ)).UpdateChecked (MathFns.mk Real.sqrt Real.log (fun y x => (Complex.mk x y).arg))
          [sampleObject (1 : ℝ) 0 0 1 2, sampleObject (-1) 0 0 (-1) 1, sampleObject 0 2 1 0 3] (1 / 60) 5 =
        some ((GravityPhysicsSystem.mk (1 : ℝ)).Update (MathFns.mk Real.sqrt Real.log (fun y x => (Complex.mk x y).arg))
          [sampleObject (1 : ℝ) 0 0 1 2, sampleObject (-1) 0 0 (-1) 1, sampleObject 0 2 1 0 3] (1 / 60) 5)) ∧
    Vec2FieldSystem.UpdateChecked (MathFns.mk Real.sqrt Real.log (fun y x => (Complex.mk x y).arg)) (GravityPhysicsSystem.mk (1 : ℝ))
        [sampleObject (1 : ℝ) 0 0 1 2, sampleObject (-1) 0 0 (-1) 1, sampleObject 0 2 1 0 3] [sampleObject 1 0 0 0 1] =
      some (Vec2FieldSystem.Update (MathFns.mk Real.sqrt Real.log (fun y x => (Complex.mk x y).arg)) (GravityPhysicsSystem.mk (1 : ℝ))
        [sampleObject (1 : ℝ) 0 0 1 2, sampleObject (-1) 0 0 (-1) 1, sampleObject 0 2 1 0 3] [sampleObject 1 0 0 0 1]) :=
  ⟨rfl,
    by
      intro obj hobj
      simp only [List.mem_cons, List.mem_singleton, List.not_mem_nil, or_false] at hobj
      rcases hobj with h | h | h <;> rw [h] <;> simp [sampleObject],
    by decide,
    (Update_no_zero_divisor (GravityPhysicsSystem.mk (1 : ℝ)) (MathFns.mk Real.sqrt Real.log (fun y x => (Complex.mk x y).arg)) rfl
      [sampleObject (1 : ℝ) 0 0 1 2, sampleObject (-1) 0 0 (-1) 1, sampleObject 0 2 1 0 3]
      (by
        intro obj hobj
        simp only [List.mem_cons, List.mem_singleton, List.not_mem_nil, or_false] at hobj
        rcases hobj with h | h | h <;> rw [h] <;> simp [sampleObject])).1 (1 / 60) 5
      (by decide),
    (Update_no_zero_divisor (GravityPhysicsSystem.mk (1 : ℝ)) (MathFns.mk Real.sqrt Real.log (fun y x => (Complex.mk x y).arg)) rfl
      [sampleObject (1 : ℝ) 0 0 1 2, sampleObject (-1) 0 0 (-1) 1, sampleObject 0 2 1 0 3]
      (by
        intro obj hobj
        simp only [List.mem_cons, List.mem_singleton, List.not_mem_nil, or_false] at hobj
        rcases hobj with h | h | h <;> rw [h] <;> simp [sampleObject])).2.2.2
      [sampleObject (1 : ℝ) 0 0 1 2, sampleObject (-1) 0 0 (-1) 1, sampleObject 0 2 1 0 3] [sampleObject 1 0 0 0 1]⟩

/-! ## Convergence of the sub-stepped scenario -/

theorem foldl_StepSimulation_symmetric (fns : MathFns ℝ) (hsqrt : fns.sqrt = Real.sqrt)
    {β : Type} (h : ℝ) (l : List β) (s : ℝ × ℝ)
    (hx : ∀ k, k < l.length → 1 / 2 ≤ ((symmetricStep h)^[k] s).1) :
    l.foldl (fun st _ => (GravityPhysicsSystem.mk (1 : ℝ)).StepSimulation fns st h)
        [sampleObject s.1 0 s.2 0 1, sampleObject (-s.1) 0 (-s.2) 0 1] =
      [sampleObject ((symmetricStep h)^[l.length] s).1 0 ((symmetricStep h)^[l.length] s).2 0 1,
        sampleObject (-((symmetricStep h)^[l.length] s).1) 0
          (-((symmetricStep h)^[l.length] s).2) 0 1] := by
  induction l generalizing s with
  | nil => rfl
  | cons b l ih =>
    have h0 : 1 / 2 ≤ s.1 := hx 0 (Nat.succ_pos _)
    rw [List.foldl_cons, StepSimulation_symmetric_pair fns hsqrt s.1 s.2 h h0]
    exact ih (symmetricStep h s) (fun k hk => hx (k + 1) (Nat.succ_lt_succ hk))

theorem symmetricStep_bounds (h : ℝ) (hh : 0 ≤ h) (n : Nat)
    (hn : 0.2501 * h ^ 2 * ((n : ℝ) * ((n : ℝ) + 1) / 2) ≤ 0.0001) :
    ∀ k : Nat, k ≤ n →
      -((k : ℝ) * h * 0.2501) ≤ ((symmetricStep h)^[k] (1, 0)).2 ∧
      ((symmetricStep h)^[k] (1, 0)).2 ≤ -((k : ℝ) * h / 4) ∧
      1 - 0.2501 * h ^ 2 * ((k : ℝ) * ((k : ℝ) + 1) / 2) ≤ ((symmetricStep h)^[k] (1, 0)).1 ∧
      ((symmetricStep h)^[k] (1, 0)).1 ≤ 1 - h ^ 2 * ((k : ℝ) * ((k : ℝ) + 1) / 8) := by
  intro k
  induction k with
  | zero =>
    intro _
    simp
  | succ k ih =>
    intro hk
    obtain ⟨hv1, hv2, hx1, hx2⟩ := ih (Nat.le_of_succ_le hk)
    have hkn : (k : ℝ) + 1 ≤ (n : ℝ) := by exact_mod_cast hk
    have hk0 : (0 : ℝ) ≤ (k : ℝ) := Nat.cast_nonneg k
    set x := ((symmetricStep h)^[k] (1, 0)).1 with hxdef
    set v := ((symmetricStep h)^[k] (1, 0)).2 with hvdef
    have hmono : (k : ℝ) * ((k : ℝ) + 1) / 2 ≤ (n : ℝ) * ((n : ℝ) + 1) / 2 := by nlinarith
    have hh2 : 0 ≤ 0.2501 * h ^ 2 := by positivity
    have hlo : 0.9999 ≤ x := by
      have := mul_le_mul_of_nonneg_left hmono hh2
      linarith
    have hx1' : x ≤ 1 := by
      have : 0 ≤ h ^ 2 * ((k : ℝ) * ((k : ℝ) + 1) / 8) := by positivity
      linarith
    have hxpos : 0 < x := by linarith
    have hx2pos : 0 < 4 * x ^ 2 := by positivity
    have ha1 : 1 / 4 ≤ 1 / (4 * x ^ 2) := by
      apply one_div_le_one_div_of_le hx2pos
      nlinarith
    have ha2 : 1 / (4 * x ^ 2) ≤ 0.2501 := by
      rw [div_le_iff₀ hx2pos]
      nlinarith
    have hstep : (symmetricStep h)^[k + 1] (1, 0) =
        (x + h * (v - h / (4 * x ^ 2)), v - h / (4 * x ^ 2)) := by
      rw [Function.iterate_succ_apply']
      rfl
    have hdiv : h / (4 * x ^ 2) = h * (1 / (4 * x ^ 2)) := by ring
    have hb1 : h * (1 / 4) ≤ h * (1 / (4 * x ^ 2)) := mul_le_mul_of_nonneg_left ha1 hh
    have hb2 : h * (1 / (4 * x ^ 2)) ≤ h * 0.2501 := mul_le_mul_of_nonneg_left ha2 hh
    rw [hstep]
    simp only [hdiv]
    push_cast
    have hv1' : -(((k : ℝ) + 1) * h * 0.2501) ≤ v - h * (1 / (4 * x ^ 2)) := by linarith
    have hv2' : v - h * (1 / (4 * x ^ 2)) ≤ -(((k : ℝ) + 1) * h / 4) := by linarith
    refine ⟨hv1', hv2', ?_, ?_⟩
    · have hm := mul_le_mul_of_nonneg_left hv1' hh
      have e : 0.2501 * h ^ 2 * (((k : ℝ) + 1) * ((k : ℝ) + 1 + 1) / 2) =
          0.2501 * h ^ 2 * ((k : ℝ) * ((k : ℝ) + 1) / 2) + h * (((k : ℝ) + 1) * h * 0.2501) := by
        ring
      linarith
    · have hm := mul_le_mul_of_nonneg_left hv2' hh
      have e : h ^ 2 * (((k : ℝ) + 1) * ((k : ℝ) + 1 + 1) / 8) =
          h ^ 2 * ((k : ℝ) * ((k : ℝ) + 1) / 8) + h * (((k : ℝ) + 1) * h / 4) := by
        ring
      linarith

theorem Update_symmetric_scenario (fns : MathFns ℝ) (hsqrt : fns.sqrt = Real.sqrt) (n : Nat)
    (hn : 0.2501 * (0.01 / (n : ℝ)) ^ 2 * ((n : ℝ) * ((n : ℝ) + 1) / 2) ≤ 0.0001) :
    ∃ x v : ℝ,
      (GravityPhysicsSystem.mk (1 : ℝ)).Update fns
        [sampleObject 1 0 0 0 1, sampleObject (-1) 0 0 0 1] 0.01 n =
        [sampleObject x 0 v 0 1, sampleObject (-x) 0 (-v) 0 1] ∧
      1 - 0.2501 * (0.01 / (n : ℝ)) ^ 2 * ((n : ℝ) * ((n : ℝ) + 1) / 2) ≤ x ∧
      x ≤ 1 - (0.01 / (n : ℝ)) ^ 2 * ((n : ℝ) * ((n : ℝ) + 1) / 8) := by
  have hh : (0 : ℝ) ≤ 0.01 / (n : ℝ) := by positivity
  have hb := symmetricStep_bounds (0.01 / (n : ℝ)) hh n hn
  have hhalf : ∀ k, k < (List.range n).length →
      1 / 2 ≤ ((symmetricStep (0.01 / (n : ℝ)))^[k] ((1 : ℝ), (0 : ℝ))).1 := by
    intro k hk
    rw [List.length_range] at hk
    obtain ⟨_, _, hx1, _⟩ := hb k hk.le
    have hk0 : (0 : ℝ) ≤ (k : ℝ) := Nat.cast_nonneg k
    have hkn : (k : ℝ) ≤ (n : ℝ) := by exact_mod_cast hk.le
    have hmono : (k : ℝ) * ((k : ℝ) + 1) / 2 ≤ (n : ℝ) * ((n : ℝ) + 1) / 2 := by nlinarith
    have hh2 : 0 ≤ 0.2501 * (0.01 / (n : ℝ)) ^ 2 := by positivity
    have := mul_le_mul_of_nonneg_left hmono hh2
    norm_num at hn this hx1 ⊢
    linarith
  have hfold := foldl_StepSimulation_symmetric fns hsqrt (0.01 / (n : ℝ)) (List.range n)
    ((1 : ℝ), (0 : ℝ)) hhalf
  rw [List.length_range] at hfold
  simp only [neg_zero] at hfold
  obtain ⟨_, _, hx1, hx2⟩ := hb n le_rfl
  exact ⟨_, _, hfold, hx1, hx2⟩

theorem length_sub_on_axis (fns : MathFns ℝ) (hsqrt : fns.sqrt = Real.sqrt) (x y : ℝ)
    (hxy : x ≤ y) : length fns ((⟨x, 0⟩ : Vec2 ℝ) - ⟨y, 0⟩) = y - x := by
  unfold length dot
  rw [hsqrt]
  simp only [Vec2.mk_sub_mk, sub_self, mul_zero, add_zero]
  rw [Real.sqrt_mul_self_eq_abs, abs_of_nonpos (by linarith)]
  ring

/-- C17: in the scenario `G = 1`, two bodies of mass 1 at `(1, 0)` and
`(-1, 0)` with zero velocities and `dt = 0.01`, over the reals, with the result
of `Update` with 8 sub-steps as the reference: the distance between the first
body's final position and its reference position is positive for 4 sub-steps,
strictly larger for 2 sub-steps, and strictly larger again for 1 sub-step. -/
theorem Update_substep_convergence (fns : MathFns ℝ) (hsqrt : fns.sqrt = Real.sqrt) :
    ∃ c1 d1 c2 d2 c4 d4 c8 d8 : VEGameObject ℝ,
      (GravityPhysicsSystem.mk (1 : ℝ)).Update fns
        [sampleObject 1 0 0 0 1, sampleObject (-1) 0 0 0 1] 0.01 1 = [c1, d1] ∧
      (GravityPhysicsSystem.mk (1 : ℝ)).Update fns
        [sampleObject 1 0 0 0 1, sampleObject (-1) 0 0 0 1] 0.01 2 = [c2, d2] ∧
      (GravityPhysicsSystem.mk (1 : ℝ)).Update fns
        [sampleObject 1 0 0 0 1, sampleObject (-1) 0 0 0 1] 0.01 4 = [c4, d4] ∧
      (GravityPhysicsSystem.mk (1 : ℝ)).Update fns
        [sampleObject 1 0 0 0 1, sampleObject (-1) 0 0 0 1] 0.01 8 = [c8, d8] ∧
      0 < length fns (c4.m_Transform2D.Translation - c8.m_Transform2D.Translation) ∧
      length fns (c4.m_Transform2D.Translation - c8.m_Transform2D.Translation) <
        length fns (c2.m_Transform2D.Translation - c8.m_Transform2D.Translation) ∧
      length fns (c2.m_Transform2D.Translation - c8.m_Transform2D.Translation) <
        length fns (c1.m_Transform2D.Translation - c8.m_Transform2D.Translation) := by
  obtain ⟨x1, v1, h1, l1, u1⟩ := Update_symmetric_scenario fns hsqrt 1 (by norm_num)
  obtain ⟨x2, v2, h2, l2, u2⟩ := Update_symmetric_scenario fns hsqrt 2 (by norm_num)
  obtain ⟨x4, v4, h4, l4, u4⟩ := Update_symmetric_scenario fns hsqrt 4 (by norm_num)
  obtain ⟨x8, v8, h8, l8, u8⟩ := Update_symmetric_scenario fns hsqrt 8 (by norm_num)
  norm_num at l1 u1 l2 u2 l4 u4 l8 u8
  refine ⟨_, _, _, _, _, _, _, _, h1, h2, h4, h8, ?_⟩
  have e1 : length fns ((sampleObject x1 0 v1 0 1).m_Transform2D.Translation
      - (sampleObject x8 0 v8 0 1).m_Transform2D.Translation) = x8 - x1 :=
    length_sub_on_axis fns hsqrt x1 x8 (by linarith)
  have e2 : length fns ((sampleObject x2 0 v2 0 1).m_Transform2D.Translation
      - (sampleObject x8 0 v8 0 1).m_Transform2D.Translation) = x8 - x2 :=
    length_sub_on_axis fns hsqrt x2 x8 (by linarith)
  have e4 : length fns ((sampleObject x4 0 v4 0 1).m_Transform2D.Translation
      - (sampleObject x8 0 v8 0 1).m_Transform2D.Translation) = x8 - x4 :=
    length_sub_on_axis fns hsqrt x4 x8 (by linarith)
  rw [e1, e2, e4]
  refine ⟨?_, ?_, ?_⟩ <;> linarith

/-- The scenario with the real square root. -/
theorem Update_substep_convergence_witness :
    (MathFns.mk Real.sqrt Real.log (fun y x => (Complex.mk x y).arg)).sqrt = Real.sqrt ∧
    ∃ c1 d1 c2 d2 c4 d4 c8 d8 : VEGameObject ℝ,
      (GravityPhysicsSystem.mk (1 : ℝ)).Update (MathFns.mk Real.sqrt Real.log (fun y x => (Complex.mk x y).arg))
        [sampleObject 1 0 0 0 1, sampleObject (-1) 0 0 0 1] 0.01 1 = [c1, d1] ∧
      (GravityPhysicsSystem.mk (1 : ℝ)).Update (MathFns.mk Real.sqrt Real.log (fun y x => (Complex.mk x y).arg))
        [sampleObject 1 0 0 0 1, sampleObject (-1) 0 0 0 1] 0.01 2 = [c2, d2] ∧
      (GravityPhysicsSystem.mk (1 : ℝ)).Update (MathFns.mk Real.sqrt Real.log (fun y x => (Complex.mk x y).arg))
        [sampleObject 1 0 0 0 1, sampleObject (-1) 0 0 0 1] 0.01 4 = [c4, d4] ∧
      (GravityPhysicsSystem.mk (1 : ℝ)).Update (MathFns.mk Real.sqrt Real.log (fun y x => (Complex.mk x y).arg))
        [sampleObject 1 0 0 0 1, sampleObject (-1) 0 0 0 1] 0.01 8 = [c8, d8] ∧
      0 < length (MathFns.mk Real.sqrt Real.log (fun y x => (Complex.mk x y).arg))
        (c4.m_Transform2D.Translation - c8.m_Transform2D.Translation) ∧
      length (MathFns.mk Real.sqrt Real.log (fun y x => (Complex.mk x y).arg))
          (c4.m_Transform2D.Translation - c8.m_Transform2D.Translation) <
        length (MathFns.mk Real.sqrt Real.log (fun y x => (Complex.mk x y).arg))
          (c2.m_Transform2D.Translation - c8.m_Transform2D.Translation) ∧
      length (MathFns.mk Real.sqrt Real.log (fun y x => (Complex.mk x y).arg))
          (c2.m_Transform2D.Translation - c8.m_Transform2D.Translation) <
        length (MathFns.mk Real.sqrt Real.log (fun y x => (Complex.mk x y).arg))
          (c1.m_Transform2D.Translation - c8.m_Transform2D.Translation) :=
  ⟨rfl, Update_substep_convergence (MathFns.mk Real.sqrt Real.log (fun y x => (Complex.mk x y).arg)) rfl⟩

/-! ## The probe mass and the call with no sub-step -/

section probe

variable {α : Type} [LinearOrderedField α]

theorem ComputeForce_target_mass (self : GravityPhysicsSystem α) (fns : MathFns α)
    (obj P : VEGameObject α) :
    self.ComputeForce fns obj P =
      P.m_RigidBody2D.Mass • self.ComputeForce fns obj { P with m_RigidBody2D.Mass := 1 } := by
  unfold GravityPhysicsSystem.ComputeForce
  simp only []
  split_ifs with h
  · ext <;> simp
  · ext <;> simp <;> ring

theorem direction_target_mass (fns : MathFns α) (physicsSystem : GravityPhysicsSystem α)
    (physicsObjs : List (VEGameObject α)) (P : VEGameObject α) :
    Vec2FieldSystem.direction fns physicsSystem physicsObjs P =
      P.m_RigidBody2D.Mass •
        Vec2FieldSystem.direction fns physicsSystem physicsObjs
          { P with m_RigidBody2D.Mass := 1 } := by
  rw [direction_eq_sum, direction_eq_sum]
  induction physicsObjs with
  | nil => simp
  | cons obj l ih =>
    rw [List.map_cons, List.sum_cons, List.map_cons, List.sum_cons, smul_add, ← ih,
      ← ComputeForce_target_mass]

theorem direction_zero_of_mass_zero (fns : MathFns α) (physicsSystem : GravityPhysicsSystem α)
    (physicsObjs : List (VEGameObject α)) (P : VEGameObject α)
    (hP : P.m_RigidBody2D.Mass = 0) :
    Vec2FieldSystem.direction fns physicsSystem physicsObjs P = 0 := by
  rw [direction_target_mass, hP, zero_smul]

end probe

/-- C21: for every simulator, body list and sample `P`, the direction
`Vec2FieldSystem::Update` accumulates at `P` is `mass (P)` times the direction
accumulated for the sample that differs from `P` only in having mass 1 (same
position); and, over the reals, a sample whose mass is 0 receives the scale
`0.005` and the rotation 0, whatever the bodies. -/
theorem Vec2FieldSystem_direction_probe_mass (fns : MathFns ℝ) (hsqrt : fns.sqrt = Real.sqrt)
    (hlog : fns.log = Real.log) (hatan2 : fns.atan2 = fun y x => (Complex.mk x y).arg)
    (physicsSystem : GravityPhysicsSystem ℝ) (physicsObjs : List (VEGameObject ℝ)) :
    (∀ P : VEGameObject ℝ,
      Vec2FieldSystem.direction fns physicsSystem physicsObjs P =
        P.m_RigidBody2D.Mass •
          Vec2FieldSystem.direction fns physicsSystem physicsObjs
            { P with m_RigidBody2D.Mass := 1 }) ∧
    (∀ (vectorField : List (VEGameObject ℝ)) (i : Fin vectorField.length),
      (vectorField.get i).m_RigidBody2D.Mass = 0 →
      ∃ vf : VEGameObject ℝ,
        (Vec2FieldSystem.Update fns physicsSystem physicsObjs vectorField).2[i.val]? = some vf ∧
        vf.m_Transform2D.Scale.x = 0.005 ∧ vf.m_Transform2D.Rotation = 0) := by
  refine ⟨fun P => direction_target_mass fns physicsSystem physicsObjs P, ?_⟩
  intro vectorField i hmass
  have hdir : Vec2FieldSystem.direction fns physicsSystem physicsObjs vectorField[i.val] = 0 :=
    direction_zero_of_mass_zero fns physicsSystem physicsObjs _ hmass
  refine ⟨_, Vec2FieldSystem_Update_getElem? fns physicsSystem physicsObjs vectorField i i.isLt,
    ?_, ?_⟩
  · show (0.005 : ℝ) + 0.045 * clamp (fns.log (fns.sqrt (dot
        (Vec2FieldSystem.direction fns physicsSystem physicsObjs vectorField[i.val])
        (Vec2FieldSystem.direction fns physicsSystem physicsObjs vectorField[i.val])) + 1) / 3)
        0 1 = 0.005
    rw [hdir, hsqrt, hlog]
    exact (fieldScale_eq_base_iff 0).mpr rfl
  · show fns.atan2
        (Vec2FieldSystem.direction fns physicsSystem physicsObjs vectorField[i.val]).y
        (Vec2FieldSystem.direction fns physicsSystem physicsObjs vectorField[i.val]).x = 0
    rw [hdir, hatan2]
    exact Complex.arg_zero

/-- One body of mass 1 at `(2, 0)` with `G = 1`: a probe of mass 3 at the
origin, and a sample list made of one sample of mass 0 at the origin. -/
theorem Vec2FieldSystem_direction_probe_mass_witness :
    (MathFns.mk Real.sqrt Real.log (fun y x => (Complex.mk x y).arg)).sqrt = Real.sqrt ∧
    (MathFns.mk Real.sqrt Real.log (fun y x => (Complex.mk x y).arg)).log = Real.log ∧
    (MathFns.mk Real.sqrt Real.log (fun y x => (Complex.mk x y).arg)).atan2
      = (fun y x => (Complex.mk x y).arg) ∧
    Vec2FieldSystem.direction (MathFns.mk Real.sqrt Real.log (fun y x => (Complex.mk x y).arg))
        (GravityPhysicsSystem.mk 1) [sampleObject 2 0 0 0 1] (sampleObject 0 0 0 0 3) =
      (sampleObject (0 : ℝ) 0 0 0 3).m_RigidBody2D.Mass •
        Vec2FieldSystem.direction (MathFns.mk Real.sqrt Real.log (fun y x => (Complex.mk x y).arg))
          (GravityPhysicsSystem.mk 1) [sampleObject 2 0 0 0 1]
          { sampleObject (0 : ℝ) 0 0 0 3 with m_RigidBody2D.Mass := 1 } ∧
    ([sampleObject (0 : ℝ) 0 0 0 0].get ⟨0, by decide⟩).m_RigidBody2D.Mass = 0 ∧
    ∃ vf : VEGameObject ℝ,
      (Vec2FieldSystem.Update (MathFns.mk Real.sqrt Real.log (fun y x => (Complex.mk x y).arg))
        (GravityPhysicsSystem.mk 1) [sampleObject 2 0 0 0 1] [sampleObject 0 0 0 0 0]).2[0]?
          = some vf ∧
      vf.m_Transform2D.Scale.x = 0.005 ∧ vf.m_Transform2D.Rotation = 0 :=
  ⟨rfl, rfl, rfl,
    (Vec2FieldSystem_direction_probe_mass (MathFns.mk Real.sqrt Real.log (fun y x => (Complex.mk x y).arg))
      rfl rfl rfl (GravityPhysicsSystem.mk 1) [sampleObject 2 0 0 0 1]).1 (sampleObject 0 0 0 0 3),
    rfl,
    (Vec2FieldSystem_direction_probe_mass (MathFns.mk Real.sqrt Real.log (fun y x => (Complex.mk x y).arg))
      rfl rfl rfl (GravityPhysicsSystem.mk 1) [sampleObject 2 0 0 0 1]).2
      [sampleObject 0 0 0 0 0] ⟨0, by decide⟩ rfl⟩

/-- C22: for every body list and `dt`, `Update` with `substeps = 0` runs the
loop body no time and returns the body list as it was; in particular the
position and the velocity of every body are unchanged. -/
theorem Update_zero_substeps {α : Type} [LinearOrderedField α] (self : GravityPhysicsSystem α)
    (fns : MathFns α) (objs : List (VEGameObject α)) (dt : α) :
    self.Update fns objs dt 0 = objs ∧
    ∀ i : Fin objs.length, ∃ obj : VEGameObject α,
      (self.Update fns objs dt 0)[i.val]? = some obj ∧
      obj.m_Transform2D.Translation = (objs.get i).m_Transform2D.Translation ∧
      obj.m_RigidBody2D.Velocity = (objs.get i).m_RigidBody2D.Velocity := by
  have h : self.Update fns objs dt 0 = objs := rfl
  refine ⟨h, fun i => ⟨objs.get i, ?_, rfl, rfl⟩⟩
  rw [h]
  exact List.getElem?_eq_getElem i.isLt

/-- With `substeps = 0` the source still evaluates `dt / substeps` before the
loop: the checked `Update` fails on that division, whose result is never used. -/
theorem UpdateChecked_zero_substeps {α : Type} [LinearOrderedField α]
    (self : GravityPhysicsSystem α) (fns : MathFns α) (objs : List (VEGameObject α)) (dt : α) :
    self.UpdateChecked fns objs dt 0 = none := by
  unfold GravityPhysicsSystem.UpdateChecked checkedDiv
  rw [if_pos Nat.cast_zero]
  rfl

end VulkanEngine
